import Mathlib

/-!
Verification development for the nk2dl Nuke-to-Deadline submission library.

The definitions below are a shallow embedding of the Python sources:

* `src/nk2dl/common/framerange.py` — the `FrameRange` class;
* `src/nk2dl/nuke/submission.py` — the `NukeSubmission` class: constructor
  validation, graph-scope-variable (GSV) parsing, job-info preparation and
  the `submit()` control flow.

External collaborators (the Nuke node graph, the Deadline connection, the
template-token renderers, configuration defaults) are modelled as explicit
parameters: nodes as a list of records, the connection as a deterministic
job-id supply indexed by submission count, and token renderers as opaque
string functions.  Machine strings are processed as `List Char` so that all
definitions evaluate inside the kernel.
-/

namespace Nk2dl

/-! ## Character and list utilities -/

/-- Python regex `\w`: ASCII letters, digits and underscore (inputs are ASCII). -/
def wordChar (c : Char) : Bool := c.isAlphanum || c = '_'

/-- `str.split(sep)` on a single-character separator: keeps empty fields. -/
def splitOnC (sep : Char) : List Char → List (List Char)
  | [] => [[]]
  | c :: rest =>
    if c = sep then [] :: splitOnC sep rest
    else
      match splitOnC sep rest with
      | [] => [[c]]
      | g :: gs => (c :: g) :: gs

/-- Numeric value of a digit string (most significant first). -/
def digitsVal (l : List Char) : Int :=
  l.foldl (fun a c => a * 10 + ((c.toNat : Int) - 48)) 0

def isDigits (l : List Char) : Bool := !l.isEmpty && l.all Char.isDigit

/-- Python `str.strip()`. -/
def trimL (l : List Char) : List Char :=
  ((l.dropWhile Char.isWhitespace).reverse.dropWhile Char.isWhitespace).reverse

/-- Python `int(str)` on a plain decimal string (optionally signed, stripped). -/
def pyIntOf (l : List Char) : Option Int :=
  match trimL l with
  | '-' :: ds => if isDigits ds then some (-(digitsVal ds)) else none
  | '+' :: ds => if isDigits ds then some (digitsVal ds) else none
  | ds => if isDigits ds then some (digitsVal ds) else none

/-- Maximal runs of non-delimiter characters (Python `split()` after collapsing). -/
def fieldsByGo (p : Char → Bool) : List Char → List Char → List (List Char)
  | acc, [] => if acc.isEmpty then [] else [acc.reverse]
  | acc, c :: rest =>
    if p c then
      (if acc.isEmpty then fieldsByGo p [] rest else acc.reverse :: fieldsByGo p [] rest)
    else fieldsByGo p (c :: acc) rest

def fieldsBy (p : Char → Bool) (l : List Char) : List (List Char) := fieldsByGo p [] l

def joinSep (sep : Char) : List (List Char) → List Char
  | [] => []
  | [x] => x
  | x :: y :: xs => x ++ sep :: joinSep sep (y :: xs)

/-- Insertion sort; with `le a b = key a ≤ key b` this is extensionally
Python's stable `sorted`/`list.sort`. -/
def insertLe (le : α → α → Bool) (a : α) : List α → List α
  | [] => [a]
  | b :: l => if le a b then a :: b :: l else b :: insertLe le a l

def pySort (le : α → α → Bool) : List α → List α
  | [] => []
  | a :: l => insertLe le a (pySort le l)

def intLe (a b : Int) : Bool := decide (a ≤ b)

/-! ## FrameRange (`src/nk2dl/common/framerange.py`) -/

/-- Error values for `FrameRange.expand_range`; each constructor corresponds
to one distinct `ValueError` message in the source. -/
inductive FRErr where
  | needsSubstitution
  | invalidExpr (s : String)
  | stepNotPositive (part : String)
  | startAfterEnd (part : String)
  | invalidRangeFormat (part : String)
  | invalidFrameNumber (part : String)
deriving DecidableEq, Repr

structure FrameRange where
  original_str : String
  processed_str : String
  has_tokens : Bool
deriving DecidableEq, Repr

/-- One alternative of `TOKEN_PATTERN = (f|m|l|hero)\b` anchored at the head
of the list.  Note the pattern has a word boundary only at its end. -/
def tokenHeadAt : List Char → Bool
  | 'f' :: rest => match rest with | [] => true | c :: _ => !wordChar c
  | 'm' :: rest => match rest with | [] => true | c :: _ => !wordChar c
  | 'l' :: rest => match rest with | [] => true | c :: _ => !wordChar c
  | 'h' :: 'e' :: 'r' :: 'o' :: rest => match rest with | [] => true | c :: _ => !wordChar c
  | _ => false

/-- `re.search(TOKEN_PATTERN, s)`: a token match at some position. -/
def hasTokensL : List Char → Bool
  | [] => false
  | l@(_ :: rest) => tokenHeadAt l || hasTokensL rest

/-- `FrameRange.__init__` (source lines 52–61). -/
def FrameRange.mkFR (s : String) : FrameRange :=
  { original_str := s, processed_str := "", has_tokens := hasTokensL s.data }

def isWordL (l : List Char) : Bool := !l.isEmpty && l.all wordChar

/-- Full match of the tail of `RANGE_PATTERN` after the `-`:
`(\d+|\w+)(?:x(\d+)|/(\d+))?`.  The `x`-step alternative is subsumed by the
word case since `x` is itself a word character. -/
def restValid (r : List Char) : Bool :=
  isWordL r ||
  (match splitOnC '/' r with
   | [b, d] => isWordL b && isDigits d
   | _ => false)

/-- Full match of one comma segment against `RANGE_PATTERN|SINGLE_PATTERN`. -/
def segValid (p : List Char) : Bool :=
  isWordL p ||
  (match splitOnC '-' p with
   | [a, b] => isWordL a && restValid b
   | _ => false)

/-- `re.match(FRAME_RANGE_PATTERN, s)`: since none of `,`/`-` can occur inside
an atom, the anchored regex is equivalent to every comma field matching one
segment alternative in full. -/
def validFrameRangeL (l : List Char) : Bool := (splitOnC ',' l).all segValid

/-- `FrameRange.is_valid_syntax` (source lines 63–73): always inspects
`original_str`. -/
def FrameRange.is_valid_syntax (fr : FrameRange) : Bool :=
  !fr.original_str.data.isEmpty && validFrameRangeL fr.original_str.data

def boundaryB : Option Char → Bool
  | none => true
  | some c => !wordChar c

def boundaryA : List Char → Bool
  | [] => true
  | c :: _ => !wordChar c

/-- `re.sub(r'\btok\b', repl, s)`: scan left to right, replacing each
whole-word occurrence; boundaries are judged on the original characters.
Fuel is the remaining input length, and every step consumes at least one
input character. -/
def subWordGo (tok repl : List Char) : Nat → Option Char → List Char → List Char
  | 0, _, l => l
  | _ + 1, _, [] => []
  | fuel + 1, prev, c :: rest =>
    if boundaryB prev && tok.isPrefixOf (c :: rest) &&
       boundaryA ((c :: rest).drop tok.length) && !tok.isEmpty then
      repl ++ subWordGo tok repl fuel (some (tok.getLastD c)) (rest.drop (tok.length - 1))
    else
      c :: subWordGo tok repl fuel (some c) rest

def subWordL (tok repl l : List Char) : List Char := subWordGo tok repl l.length none l

/-- `FrameRange.normalize_hero_frames` (source lines 75–95): collapse any mix
of commas and whitespace to single commas. -/
def normalize_hero_frames (s : String) : String :=
  List.asString (joinSep ',' (fieldsBy (fun c => c = ',' || c.isWhitespace) s.data))

/-- `FrameRange.substitute_tokens` (source lines 97–139).  `m` is substituted
with `int((first + last) / 2)`, i.e. truncation toward zero (`Int.tdiv`). -/
def FrameRange.substitute_tokens (fr : FrameRange)
    (first_frame last_frame : Option Int) (hero_frames : Option String) : FrameRange :=
  if !fr.has_tokens then { fr with processed_str := fr.original_str }
  else
    let middle : Option Int :=
      match first_frame, last_frame with
      | some a, some b => some (Int.tdiv (a + b) 2)
      | _, _ => none
    let r0 := fr.original_str.data
    let r1 := match first_frame with
      | some a => subWordL ['f'] (toString a).data r0
      | none => r0
    let r2 := match middle with
      | some m => subWordL ['m'] (toString m).data r1
      | none => r1
    let r3 := match last_frame with
      | some b => subWordL ['l'] (toString b).data r2
      | none => r2
    let r4 := match hero_frames with
      | some h => subWordL ['h', 'e', 'r', 'o'] (normalize_hero_frames h).data r3
      | none => r3
    { fr with processed_str := List.asString r4 }

/-- Prefix match of `(\d+)-(\d+)(?:x(\d+)|/(\d+))?` (source line 222); returns
`(start, end, step)` with the step defaulted to 1 — trailing unmatched input
is ignored, exactly as with `re.match`. -/
def matchRangeHead (p : List Char) : Option (Int × Int × Int) :=
  let d1 := p.takeWhile Char.isDigit
  let r1 := p.dropWhile Char.isDigit
  if d1.isEmpty then none
  else
    match r1 with
    | '-' :: r2 =>
      let d2 := r2.takeWhile Char.isDigit
      let r3 := r2.dropWhile Char.isDigit
      if d2.isEmpty then none
      else
        let stp : Option Int :=
          match r3 with
          | 'x' :: r4 =>
            let d3 := r4.takeWhile Char.isDigit
            if d3.isEmpty then none else some (digitsVal d3)
          | '/' :: r4 =>
            let d3 := r4.takeWhile Char.isDigit
            if d3.isEmpty then none else some (digitsVal d3)
          | _ => none
        some (digitsVal d1, digitsVal d2, stp.getD 1)
    | _ => none

/-- Python `range(a, b, stp)` for a positive step. -/
def pyRange (a b stp : Int) : List Int :=
  if a < b ∧ 0 < stp then
    (List.range (((b - 1 - a) / stp).toNat + 1)).map (fun k => a + stp * (k : Int))
  else []

/-- Body of the per-segment loop of `expand_range` (source lines 220–244). -/
def expandPart (p : List Char) : Except FRErr (List Int) :=
  if p.contains '-' then
    match matchRangeHead p with
    | some (a, b, stp) =>
      if stp ≤ 0 then .error (.stepNotPositive (List.asString p))
      else if a > b then .error (.startAfterEnd (List.asString p))
      else .ok (pyRange a (b + 1) stp)
    | none => .error (.invalidRangeFormat (List.asString p))
  else
    match pyIntOf p with
    | some n => .ok [n]
    | none => .error (.invalidFrameNumber (List.asString p))

def expandParts : List (List Char) → Except FRErr (List Int)
  | [] => .ok []
  | p :: ps =>
    match expandPart p with
    | .error e => .error e
    | .ok xs =>
      match expandParts ps with
      | .error e => .error e
      | .ok rest => .ok (xs ++ rest)

/-- `FrameRange.expand_range` (source lines 199–246): the token check fires
only while `processed_str` is still empty; the grammar check always inspects
`original_str`; the result is `sorted(result)` — sorted, not deduplicated. -/
def FrameRange.expand_range (fr : FrameRange) : Except FRErr (List Int) :=
  if fr.processed_str.data.isEmpty && fr.has_tokens then .error .needsSubstitution
  else
    let processed := if fr.processed_str.data.isEmpty then fr.original_str else fr.processed_str
    if !(FrameRange.is_valid_syntax fr) then .error (.invalidExpr processed)
    else
      match expandParts (splitOnC ',' processed.data) with
      | .error e => .error e
      | .ok res => .ok (pySort intLe res)

example : (FrameRange.mkFR "1-10x3").expand_range = .ok [1, 4, 7, 10] := rfl
example : (FrameRange.mkFR "1-3,2").expand_range = .ok [1, 2, 2, 3] := rfl
example : (FrameRange.mkFR "9-18x2,100").expand_range = .ok [9, 11, 13, 15, 17, 100] := rfl
example : (FrameRange.mkFR "5-2").expand_range = .error (.startAfterEnd "5-2") := rfl
example : (FrameRange.mkFR "1-10x0").expand_range = .error (.stepNotPositive "1-10x0") := rfl
example : (FrameRange.mkFR "f-l").expand_range = .error .needsSubstitution := rfl
example : ((FrameRange.mkFR "f-l").substitute_tokens (some 1) (some 101) none).processed_str = "1-101" := rfl
example : ((FrameRange.mkFR "f-l").substitute_tokens (some 1) none none).expand_range
    = .error (.invalidRangeFormat "1-l") := rfl
example : ((FrameRange.mkFR "f,m,l").substitute_tokens (some 1) (some 101) none).expand_range
    = .ok [1, 51, 101] := rfl
example : FrameRange.is_valid_syntax (FrameRange.mkFR "") = false := rfl
example : normalize_hero_frames " 1, 2  3,,4 " = "1,2,3,4" := rfl

/-! ## Graph scope variables (`src/nk2dl/nuke/submission.py`, lines 649–797) -/

/-- Submission-side errors; each constructor corresponds to one distinct
`SubmissionError` raise site in `NukeSubmission.__init__` and the GSV parser. -/
inductive SubErr where
  | bothModes
  | customFrameList
  | scriptMissing
  | invalidFrameRange (s : String)
  | frameRangeFromNuke
  | gsvNoValues (key : String)
  | gsvInvalidValues (key : String) (bad : List String)
  | gsvInvalidValue (key : String) (value : String)
  | gsvNoKnob
  | gsvNoCombos
deriving DecidableEq, Repr

/-- One concrete GSV assignment: a tuple of `(key, value)` pairs. -/
abbrev Combo := List (String × String)

/-- `gsv_string.split(":", 1)` combined with the no-colon fallback
(source lines 707–713 and 750–756). -/
def splitKeyVals (s : String) : String × String :=
  match splitOnC ':' s.data with
  | [] => ("", "")
  | [k] => (List.asString k, "")
  | k :: rest => (List.asString k, List.asString (joinSep ':' rest))

/-- `[v.strip() for v in values_str.split(",") if v.strip()]`. -/
def parseValues (valuesStr : String) : List String :=
  ((splitOnC ',' valuesStr.data).map trimL).filterMap
    (fun v => if v.isEmpty then none else some (List.asString v))

/-- Key/value selection of `_parse_flat_gsv_format` for one input string
(source lines 707–735). -/
def gsvSelect (options : String → List String) (s : String) :
    Except SubErr (String × List String) :=
  let kv := splitKeyVals s
  let available := options kv.1
  if kv.2.data.isEmpty then
    if available.isEmpty then .error (.gsvNoValues kv.1)
    else .ok (kv.1, available)
  else
    let selected := parseValues kv.2
    if !available.isEmpty then
      let invalid := selected.filter (fun v => !available.contains v)
      if !invalid.isEmpty then .error (.gsvInvalidValues kv.1 invalid)
      else .ok (kv.1, selected)
    else .ok (kv.1, selected)

/-- `itertools.product`: earlier lists vary slowest. -/
def listProd : List (List α) → List (List α)
  | [] => [[]]
  | xs :: rest => (xs.map (fun x => (listProd rest).map (fun c => x :: c))).flatten

/-- `_parse_flat_gsv_format` (source lines 699–738). -/
def parseFlatGsv (options : String → List String) (gsvStrings : List String) :
    Except SubErr (List Combo) := do
  let sets ← gsvStrings.mapM (fun s => do
    let kv ← gsvSelect options s
    pure (kv.2.map (fun v => (kv.1, v))))
  pure (listProd sets)

/-- Per-string pair collection of `_parse_nested_gsv_format`
(source lines 750–778). -/
def gsvSelectNested (options : String → List String) (s : String) :
    Except SubErr (List (String × String)) :=
  let kv := splitKeyVals s
  let available := options kv.1
  if kv.2.data.isEmpty then
    if available.isEmpty then .error (.gsvNoValues kv.1)
    else .ok (available.map (fun v => (kv.1, v)))
  else
    (parseValues kv.2).mapM (fun v =>
      if !available.isEmpty && !available.contains v then
        .error (.gsvInvalidValue kv.1 v)
      else .ok (kv.1, v))

/-- Deduplication keeping first occurrences (Python dict insertion order). -/
def firstDedupGo [DecidableEq α] (seen : List α) : List α → List α
  | [] => []
  | x :: xs =>
    if seen.contains x then firstDedupGo seen xs
    else x :: firstDedupGo (x :: seen) xs

def firstDedup [DecidableEq α] (l : List α) : List α := firstDedupGo [] l

/-- Combination subset produced by one inner list of the nested format
(source lines 746–797): keys grouped in first-occurrence order, then the
cross product within the set. -/
def nestedSetCombos (options : String → List String) (gsvSet : List String) :
    Except SubErr (List Combo) := do
  let pairsLists ← gsvSet.mapM (gsvSelectNested options)
  let current := pairsLists.flatten
  if current.isEmpty then pure []
  else
    let keys := firstDedup (current.map (·.1))
    let valueLists := keys.map (fun k => (current.filter (fun kv => kv.1 = k)).map (·.2))
    pure ((listProd valueLists).map (fun vs => keys.zip vs))

/-- `_parse_nested_gsv_format` (source lines 740–797): inner lists are NOT
cross-multiplied with each other. -/
def parseNestedGsv (options : String → List String) (sets : List (List String)) :
    Except SubErr (List Combo) := do
  let css ← sets.mapM (nestedSetCombos options)
  pure css.flatten

/-- `(major > 15) or (major == 15 and minor >= 2)` over the first two dotted
components, false when unpacking or `int()` fails (source lines 260–265). -/
def supportsGsv (v : String) : Bool :=
  match (splitOnC '.' v.data).take 2 with
  | [a, b] =>
    match pyIntOf a, pyIntOf b with
    | some major, some minor => major > 15 || (major == 15 && minor ≥ 2)
    | _, _ => false
  | _ => false

/-- The two accepted shapes of the `graph_scope_variables` argument. -/
inductive GsvInput where
  | flat (l : List String)
  | nested (l : List (List String))
deriving DecidableEq, Repr

/-- Python truthiness of the `graph_scope_variables` attribute. -/
def gsvTruthy : Option GsvInput → Bool
  | none => false
  | some (.flat l) => !l.isEmpty
  | some (.nested l) => !l.isEmpty

/-! ## External collaborators and constructor parameters -/

/-- A Write node of the hosting script, as read through the Nuke API. -/
structure WNode where
  name : String
  renderOrder : Int := 0
  hasRenderOrderKnob : Bool := true
  disabled : Bool := false
  isMovie : Bool := false
deriving DecidableEq, Repr

/-- External collaborators: the script's node graph, the Deadline connection
(a deterministic job-id supply indexed by submission count), and the
template-token renderers of `_replace_tokens`, which call into Nuke for
script-derived values and are therefore opaque here. -/
structure Env where
  nodes : List WNode := []
  scriptExists : Bool := true
  versionStr : String := "15.1"
  scriptPathStr : String := "/job/script.nk"
  hasGsvKnob : Bool := false
  gsvOptions : String → List String := fun _ => []
  jobIds : Nat → String := fun n => "J" ++ toString n
  renderName : Option String → Option Combo → String := fun _ _ => "job"
  renderComment : String → Option String → Option Combo → String := fun t _ _ => t
  renderExtra : String → Option String → Option Combo → String := fun t _ _ => t
  prettyPath : String → Option Combo → Option String := fun _ _ => none
  nodeFrames : Option Combo → List (String × Int × Int) := fun _ => []

/-- Constructor arguments of `NukeSubmission.__init__` that feed the modelled
control flow, with the configuration defaults of lines 189–247 inlined. -/
structure Params where
  frame_range : String := ""
  write_nodes : Option (List String) := none
  write_nodes_as_tasks : Bool := false
  write_nodes_as_separate_jobs : Bool := false
  render_order_dependencies : Bool := false
  use_nodes_frame_list : Bool := false
  submit_alphabetically : Bool := false
  submit_in_render_order : Bool := false
  job_dependencies : Option String := none
  graph_scope_variables : Option GsvInput := none
  chunk_size : Int := 10
  priority : Int := 50
  concurrent_tasks : Int := 1
  pool : String := "nuke"
  group : String := "none"
  batch_name : String := "script"
  department : String := ""
  comment : String := ""
  extra_info : List String := []
  output_path : String := ""
  use_nuke_x : Bool := false
  batch_mode : Bool := true
  enforce_render_order : Bool := true
  continue_on_error : Bool := false
  render_mode : String := "full"
  render_threads : Option Int := none
  use_gpu : Bool := false
  gpu_override : Option String := none
  max_ram_usage : Option Int := none
  min_stack_size : Option Int := none
  reload_plugins : Bool := false
  use_profiler : Bool := false
  profile_dir : Option String := none
  use_proxy : Bool := false
  submit_script_as_auxiliary_file : Bool := false

def wLen : Option (List String) → Nat
  | none => 0
  | some l => l.length

/-- Python truthiness of `self.write_nodes`. -/
def wTruthy (w : Option (List String)) : Bool := wLen w > 0

def wList : Option (List String) → List String
  | none => []
  | some l => l

def headW : Option (List String) → String
  | some (x :: _) => x
  | _ => ""

/-! ## Job-info dictionaries -/

/-- Deadline job-info / plugin-info dictionary keys produced by the source;
indexed constructors stand for the `f"...{i}"` key families. -/
inductive JKey where
  | Name | Plugin | Frames | ChunkSize | ConcurrentTasks | Pool | Group | Priority
  | BatchName | Department | Comment
  | OutputFilename (i : Nat)
  | ExtraInfo (i : Nat)
  | JobDependency (i : Nat)
  | AuxiliaryFiles
  | Version | UseNukeX | BatchMode | EnforceRenderOrder | ContinueOnError | RenderMode
  | SceneFile | BatchModeIsMovie | WriteNodesAsSeparateJobs
  | WriteNodeN (i : Nat) | WriteNodeNStart (i : Nat) | WriteNodeNEnd (i : Nat)
  | WriteNode | OutputFilePath | GraphScopeVariablesEnabled | GraphScopeVariables
  | NukeThreadLimit | UseGpu | GpuOverride | RamUse | StackSize | ReloadPlugins
  | PerformanceProfiler | PerformanceProfilerDir | UseProxy
deriving DecidableEq, Repr

/-- Dictionary values: Python keeps ints and strings in the job-info dict. -/
inductive JVal where
  | s (v : String)
  | i (v : Int)
deriving DecidableEq, Repr

/-- A Python dict in insertion order. -/
abbrev JobInfo := List (JKey × JVal)

def jLookup : JobInfo → JKey → Option JVal
  | [], _ => none
  | (k', v) :: rest, k => if k' = k then some v else jLookup rest k

/-- Dict assignment: replace in place when the key exists, else append. -/
def setKey : JobInfo → JKey → JVal → JobInfo
  | [], k, v => [(k, v)]
  | (k', v') :: rest, k, v =>
    if k' = k then (k', v) :: rest else (k', v') :: setKey rest k v

/-! ## Constructor validation (`NukeSubmission.__init__`, lines 165–306) -/

def numericRangeStr (s : String) : Bool :=
  match splitOnC '-' s.data with
  | [a, b] => isDigits a && isDigits b
  | _ => false

/-- The frame ranges admitted for per-output-task mode (source lines 174–177). -/
def allowedTaskFrameRange (s : String) : Bool :=
  let lower := List.asString (s.data.map Char.toLower)
  (["f-l", "first-last", "f", "m", "l", "first", "middle", "last", "i", "input"].contains lower)
  || numericRangeStr s

/-- `_parse_graph_scope_variables` (source lines 649–697): unsupported version
returns quietly with zero combinations; a missing `gsv` knob or an empty
combination list is an error. -/
def parseGsvCombos (env : Env) (g : GsvInput) : Except SubErr (List Combo) :=
  if !supportsGsv env.versionStr then .ok []
  else if !env.hasGsvKnob then .error .gsvNoKnob
  else
    match (match g with
           | .flat l => parseFlatGsv env.gsvOptions l
           | .nested l => parseNestedGsv env.gsvOptions l) with
    | .error e => .error e
    | .ok combos => if combos.isEmpty then .error .gsvNoCombos else .ok combos

/-- The state a successfully constructed `NukeSubmission` carries into
`submit()`. -/
structure InitState where
  p : Params
  combos : List Combo
  fr : FrameRange

/-- `NukeSubmission.__init__`: the validation sequence of lines 165–183, the
GSV support gate of lines 257–270 (a warning that silently drops the request),
the frame-range setup of lines 272–300 and the GSV parse of line 305.
When the frame range contains tokens, the in-constructor substitution attempt
always fails inside `_get_frame_range_from_nuke` (its call to
`substitute_tokens_from_nuke` passes an argument the method does not accept)
and is caught at line 292 as a warning, leaving the range unchanged; an empty
frame range reaches line 633 with `self.fr` unset and surfaces as a
`SubmissionError` from line 647. -/
def initModel (env : Env) (p0 : Params) : Except SubErr InitState :=
  let p1 := if p0.render_order_dependencies then
      { p0 with write_nodes_as_separate_jobs := true } else p0
  if p1.write_nodes_as_tasks && p1.write_nodes_as_separate_jobs then .error .bothModes
  else if p1.write_nodes_as_tasks && !p1.frame_range.data.isEmpty
          && !p1.use_nodes_frame_list && !allowedTaskFrameRange p1.frame_range then
    .error .customFrameList
  else if !env.scriptExists then .error .scriptMissing
  else
    let gsv1 : Option GsvInput :=
      if gsvTruthy p1.graph_scope_variables && !supportsGsv env.versionStr then none
      else p1.graph_scope_variables
    let p := { p1 with graph_scope_variables := gsv1 }
    if p.frame_range.data.isEmpty then .error .frameRangeFromNuke
    else
      let fr := FrameRange.mkFR p.frame_range
      if !(FrameRange.is_valid_syntax fr) then .error (.invalidFrameRange p.frame_range)
      else if gsvTruthy gsv1 then
        match gsv1 with
        | some g =>
          (match parseGsvCombos env g with
           | .error e => .error e
           | .ok cs => .ok ⟨p, cs, fr⟩)
        | none => .ok ⟨p, [], fr⟩
      else .ok ⟨p, [], fr⟩

/-! ## submit() (`NukeSubmission.submit`, lines 1480–1781) -/

/-- `jobs_by_render_order`: a Python dict from render order to job-id list. -/
abbrev RoMap := List (Int × List String)

def roLookup : RoMap → Int → Option (List String)
  | [], _ => none
  | (o', ids) :: rest, o => if o' = o then some ids else roLookup rest o

/-- `jobs_by_render_order.setdefault(o, []).append(jid)` semantics. -/
def roAdd (m : RoMap) (o : Int) (jid : String) : RoMap :=
  match roLookup m o with
  | some _ => m.map (fun e => if e.1 = o then (e.1, e.2 ++ [jid]) else e)
  | none => m ++ [(o, [jid])]

/-- One `deadline.submit_job` call as observed from outside: the GSV pass it
belongs to, the render-order key it is recorded under, the returned id and the
two dictionaries passed to the connection. -/
structure SubEntry where
  passIdx : Nat
  ro : Int
  jid : String
  jobInfo : JobInfo
  pluginInfo : JobInfo

structure SubState where
  byRO : RoMap
  count : Nat
  trace : List SubEntry

def SubState.empty : SubState := ⟨[], 0, []⟩

def doSubmit (env : Env) (passIdx : Nat) (o : Int) (ji pli : JobInfo)
    (st : SubState) : SubState :=
  let jid := env.jobIds st.count
  ⟨roAdd st.byRO o jid, st.count + 1, st.trace ++ [⟨passIdx, o, jid, ji, pli⟩]⟩

def findNode (env : Env) (n : String) : Option WNode :=
  env.nodes.find? (fun w => w.name == n)

/-- `render_order = int(node['render_order'].value()) if knob present else 0`. -/
def nodeOrder (w : WNode) : Int := if w.hasRenderOrderKnob then w.renderOrder else 0

def orderOfEnv (env : Env) (n : String) : Int :=
  match findNode env n with
  | some w => nodeOrder w
  | none => 0

def isMovieEnv (env : Env) (n : String) : Bool :=
  match findNode env n with
  | some w => w.isMovie
  | none => false

/-- `re.search(r'\b(i|input)\b', s)`. -/
def containsWordIGo : Option Char → List Char → Bool
  | _, [] => false
  | prev, l@(c :: rest) =>
    (boundaryB prev &&
      ((c = 'i' && boundaryA rest) ||
       (match l with
        | 'i' :: 'n' :: 'p' :: 'u' :: 't' :: r => boundaryA r
        | _ => false)))
    || containsWordIGo (some c) rest

def containsWordI (s : String) : Bool := containsWordIGo none s.data

/-- `re.split(r'[,\s]+', jd.strip())` as a list of fields. -/
def depListOf (jd : String) : List String :=
  (fieldsBy (fun c => c = ',' || c.isWhitespace) (trimL jd.data)).map List.asString

/-- `len(re.split(r'[,\s]+', jd.strip()))` — an all-whitespace string still
counts one empty field. -/
def depCountOf (jd : String) : Nat :=
  let t := trimL jd.data
  if t.isEmpty then 1
  else (fieldsBy (fun c => c = ',' || c.isWhitespace) t).length

def leftBrace : Char := Char.ofNat 123
def rightBrace : Char := Char.ofNat 125

/-- `any(token in s for token in [..both braces..])`. -/
def hasBrace (s : String) : Bool := s.data.contains leftBrace || s.data.contains rightBrace

def b01 (b : Bool) : String := if b then "1" else "0"

def pyCapitalize (s : String) : String :=
  match s.data with
  | [] => ""
  | c :: rest => List.asString (c.toUpper :: rest.map Char.toLower)

def joinComma (l : List String) : String := List.asString (joinSep ',' (l.map (·.data)))

/-- Base dict literal of `_prepare_job_info` (source lines 846–862). -/
def baseJobInfo (env : Env) (p : Params) (gsv : Option Combo) : JobInfo :=
  let jobName := if wLen p.write_nodes = 1 then env.renderName (some (headW p.write_nodes)) gsv
                 else env.renderName none gsv
  [(.Name, .s jobName), (.Plugin, .s "Nuke"), (.Frames, .s p.frame_range),
   (.ChunkSize, .i p.chunk_size), (.ConcurrentTasks, .i p.concurrent_tasks),
   (.Pool, .s p.pool), (.Group, .s p.group), (.Priority, .i p.priority)]

/-- `_add_output_filenames_to_job_info` (source lines 930–974). -/
def addOutputFilenames (env : Env) (p : Params) (gsv : Option Combo) (ji : JobInfo) : JobInfo :=
  if p.write_nodes_as_tasks && wTruthy p.write_nodes then
    (wList p.write_nodes).enum.foldl (fun acc iw =>
      match findNode env iw.2 with
      | some w =>
        if !w.disabled then
          match env.prettyPath iw.2 gsv with
          | some path => setKey acc (.OutputFilename iw.1) (.s path)
          | none => acc
        else acc
      | none => acc) ji
  else if wLen p.write_nodes = 1 then
    (match findNode env (headW p.write_nodes) with
     | some w =>
       if !w.disabled then
         match env.prettyPath (headW p.write_nodes) gsv with
         | some path => setKey ji (.OutputFilename 0) (.s path)
         | none => ji
       else ji
     | none => ji)
  else if wLen p.write_nodes = 0 then
    ((env.nodes.filter (fun w => !w.disabled)).enum.foldl (fun acc iw =>
      match env.prettyPath iw.2.name gsv with
      | some path => setKey acc (.OutputFilename iw.1) (.s path)
      | none => acc) ji)
  else ji

/-- The `ExtraInfo{i}` loop of `_prepare_job_info` (source lines 886–895). -/
def extraInfoWrites (env : Env) (p : Params) (gsv : Option Combo) (ji : JobInfo) : JobInfo :=
  p.extra_info.enum.foldl (fun acc ie =>
    if hasBrace ie.2 then
      setKey acc (.ExtraInfo ie.1)
        (.s (env.renderExtra ie.2
              (if wLen p.write_nodes = 1 then some (headW p.write_nodes) else none) gsv))
    else setKey acc (.ExtraInfo ie.1) (.s ie.2)) ji

/-- The user job-dependency loop of `_prepare_job_info` (source lines 905–913):
the index advances on every element, empty fields are skipped. -/
def depWrites : JobInfo → Nat → List String → JobInfo
  | ji, _, [] => ji
  | ji, n, d :: ds =>
    depWrites (if !d.data.isEmpty then setKey ji (.JobDependency n) (.s d) else ji) (n + 1) ds

/-- `_prepare_job_info` (source lines 837–928). -/
def prepareJobInfo (env : Env) (p : Params) (gsv : Option Combo) : JobInfo :=
  let ji := baseJobInfo env p gsv
  let ji := if !p.batch_name.data.isEmpty then setKey ji .BatchName (.s p.batch_name) else ji
  let ji := if !p.department.data.isEmpty then setKey ji .Department (.s p.department) else ji
  let ji :=
    if !p.comment.data.isEmpty then
      (if hasBrace p.comment then
        setKey ji .Comment
          (.s (env.renderComment p.comment
                (if wLen p.write_nodes = 1 then some (headW p.write_nodes) else none) gsv))
      else setKey ji .Comment (.s p.comment))
    else ji
  let ji := addOutputFilenames env p gsv ji
  let ji := extraInfoWrites env p gsv ji
  let ji :=
    if p.write_nodes_as_tasks && wTruthy p.write_nodes then
      setKey (setKey ji .Frames (.s ("0-" ++ toString (wLen p.write_nodes - 1))))
        .ChunkSize (.i 1)
    else ji
  let ji :=
    match p.job_dependencies with
    | some jd => if !jd.data.isEmpty then depWrites ji 0 (depListOf jd) else ji
    | none => ji
  if p.submit_script_as_auxiliary_file then setKey ji .AuxiliaryFiles (.s env.scriptPathStr)
  else ji

def parseExplicitRange (s : String) : Int × Int :=
  match splitOnC '-' s.data with
  | [a, b] => (digitsVal a, digitsVal b)
  | _ => (0, 0)

def gsvComboString (c : Combo) : String :=
  List.asString (joinSep ',' (c.map (fun kv => kv.1.data ++ ':' :: kv.2.data)))

/-- `_prepare_plugin_info` (source lines 976–1083). -/
def preparePluginInfo (env : Env) (p : Params) (gsv : Option Combo) : JobInfo :=
  let pli : JobInfo :=
    [(.Version, .s env.versionStr), (.UseNukeX, .s (b01 p.use_nuke_x)),
     (.BatchMode, .s (b01 p.batch_mode)),
     (.EnforceRenderOrder, .s (b01 p.enforce_render_order)),
     (.ContinueOnError, .s (b01 p.continue_on_error)),
     (.RenderMode, .s (pyCapitalize p.render_mode))]
  let pli := if !p.submit_script_as_auxiliary_file then
      setKey pli .SceneFile (.s env.scriptPathStr) else pli
  let pli := if wLen p.write_nodes = 1 && !p.write_nodes_as_tasks
                && isMovieEnv env (headW p.write_nodes) then
      setKey pli .BatchModeIsMovie (.s "True") else pli
  let pli := match p.render_threads with
    | some t => setKey pli .NukeThreadLimit (.s (toString t))
    | none => pli
  let pli := if p.use_gpu then setKey pli .UseGpu (.s "1") else pli
  let pli := match p.gpu_override with
    | some g => setKey pli .GpuOverride (.s g)
    | none => pli
  let pli := match p.max_ram_usage with
    | some r => setKey pli .RamUse (.s (toString r))
    | none => pli
  let pli := match p.min_stack_size with
    | some m => setKey pli .StackSize (.s (toString m))
    | none => pli
  let pli := if p.reload_plugins then setKey pli .ReloadPlugins (.s "1") else pli
  let pli := if p.use_profiler then
      (match p.profile_dir with
       | some d => setKey (setKey pli .PerformanceProfiler (.s "1")) .PerformanceProfilerDir (.s d)
       | none => setKey pli .PerformanceProfiler (.s "1"))
    else pli
  let pli := if p.use_proxy then setKey pli .UseProxy (.s "1") else pli
  let pli :=
    if p.write_nodes_as_tasks && wTruthy p.write_nodes then
      let pli := setKey pli .WriteNodesAsSeparateJobs (.s "True")
      let explicitFR := !p.frame_range.data.isEmpty
        && !(FrameRange.mkFR p.frame_range).has_tokens
        && !p.use_nodes_frame_list && numericRangeStr p.frame_range
      let info : List (String × Int × Int) :=
        if explicitFR then
          (wList p.write_nodes).map (fun n =>
            (n, (parseExplicitRange p.frame_range).1, (parseExplicitRange p.frame_range).2))
        else env.nodeFrames gsv
      info.enum.foldl (fun acc ie =>
        setKey (setKey (setKey acc (.WriteNodeN ie.1) (.s ie.2.1))
            (.WriteNodeNStart ie.1) (.s (toString ie.2.2.1)))
          (.WriteNodeNEnd ie.1) (.s (toString ie.2.2.2))) pli
    else if wTruthy p.write_nodes && !p.render_order_dependencies then
      setKey pli .WriteNode (.s (joinComma (wList p.write_nodes)))
    else pli
  let pli := if !p.output_path.data.isEmpty then
      setKey pli .OutputFilePath (.s p.output_path) else pli
  match gsv with
  | some c =>
    if !c.isEmpty then
      setKey (setKey pli .GraphScopeVariablesEnabled (.s "1"))
        .GraphScopeVariables (.s (gsvComboString c))
    else pli
  | none => pli

/-! ### The per-output-job loop (source lines 1540–1636 and 1669–1764) -/

def strLeL : List Char → List Char → Bool
  | [], _ => true
  | _ :: _, [] => false
  | a :: as, b :: bs => if a = b then strLeL as bs else decide (a < b)

def strLe (a b : String) : Bool := strLeL a.data b.data

/-- `sorted(set(values))` over the per-node render orders. -/
def uniqueOrders (os : List Int) : List Int := pySort intLe (firstDedup os)

/-- `list.index` (total: the argument is always a member at the call sites). -/
def idxOfInt : List Int → Int → Nat
  | [], _ => 0
  | x :: xs, o => if x = o then 0 else idxOfInt xs o + 1

/-- `_get_write_nodes_by_render_order` node collection and filtering
(source lines 1230–1248): every Write node of the script, restricted to
`self.write_nodes` when that list is truthy. -/
def writeNodesInfo (env : Env) (p : Params) : List (String × Int) :=
  let infos := env.nodes.map (fun w => (w.name, nodeOrder w))
  match p.write_nodes with
  | some wns => if !wns.isEmpty then infos.filter (fun x => wns.contains x.1) else infos
  | none => infos

/-- The three `list.sort` variants of source lines 1250–1260 (stable, by the
Python key tuples). -/
def sortInfoByOptions (p : Params) (l : List (String × Int)) : List (String × Int) :=
  if p.submit_in_render_order && p.submit_alphabetically then
    pySort (fun a b => decide (a.2 < b.2) || (decide (a.2 = b.2) && strLe a.1 b.1)) l
  else if p.submit_in_render_order then
    pySort (fun a b => intLe a.2 b.2) l
  else if p.submit_alphabetically then
    pySort (fun a b => strLe a.1 b.1) l
  else l

/-- Grouping of source lines 1262–1266. -/
def groupByOrder (l : List (String × Int)) : RoMap :=
  l.foldl (fun m x => roAdd m x.2 x.1) []

/-- `_get_sorted_write_nodes` (source lines 1272–1307): both branches iterate
the group keys in ascending order; only the alphabetical-only branch re-sorts
the concatenation afterwards. -/
def sortedWriteNodes (env : Env) (p : Params) : List String :=
  let m := groupByOrder (sortInfoByOptions p (writeNodesInfo env p))
  let keys := pySort intLe (m.map (·.1))
  if p.submit_in_render_order then
    (keys.map (fun o =>
      let g := (roLookup m o).getD []
      if p.submit_alphabetically then pySort strLe g else g)).flatten
  else
    let allNodes := (keys.map (fun o => (roLookup m o).getD [])).flatten
    if p.submit_alphabetically then pySort strLe allNodes else allNodes

/-- Loop-invariant data of one multi-job pass: the shared base dictionaries,
the user dependency count, the sorted unique render orders and the per-node
frame overrides. -/
structure NodeCtx where
  baseJob : JobInfo
  basePlugin : JobInfo
  depCount : Nat
  unique : List Int
  framesMap : String → Option (Int × Int)

def mkNodeCtx (env : Env) (p : Params) (gsv : Option Combo) (ji pli : JobInfo) : NodeCtx :=
  let framesCond := p.use_nodes_frame_list || containsWordI p.frame_range
  { baseJob := ji, basePlugin := pli,
    depCount :=
      match p.job_dependencies with
      | some jd => if !jd.data.isEmpty then depCountOf jd else 0
      | none => 0,
    unique := uniqueOrders ((sortedWriteNodes env p).map (orderOfEnv env)),
    framesMap := fun n =>
      if framesCond then ((env.nodeFrames gsv).find? (fun t => t.1 == n)).map (·.2)
      else none }

/-- The render-order dependency loop body (source lines 1626–1628 / 1754–1756):
indices start at the user-dependency count, every accumulated id is written. -/
def depWritesAll : JobInfo → Nat → List String → JobInfo
  | ji, _, [] => ji
  | ji, n, d :: ds => depWritesAll (setKey ji (.JobDependency n) (.s d)) (n + 1) ds

/-- One step of the per-node `ExtraInfo{i}` re-render loop (source lines
1593–1597 / 1721–1725). -/
def nodeExtraStep (env : Env) (gsv : Option Combo) (wn : String)
    (acc : JobInfo) (ie : Nat × String) : JobInfo :=
  if (jLookup acc (.ExtraInfo ie.1)).isSome && hasBrace ie.2 then
    setKey acc (.ExtraInfo ie.1) (.s (env.renderExtra ie.2 (some wn) gsv))
  else acc

/-- Per-node clone-and-update of the job dict before the dependency step
(source lines 1576–1613 / 1704–1741). -/
def nodeJobBase (env : Env) (p : Params) (gsv : Option Combo) (ctx : NodeCtx)
    (wn : String) : JobInfo :=
  let ji := ctx.baseJob
  let ji := if !p.write_nodes_as_tasks && isMovieEnv env wn then
      setKey ji .ChunkSize (.s "1000000") else ji
  let ji := setKey ji .Name (.s (env.renderName (some wn) gsv))
  let ji :=
    match jLookup ji .Comment with
    | some (.s c) =>
      if hasBrace c then setKey ji .Comment (.s (env.renderComment p.comment (some wn) gsv))
      else ji
    | _ => ji
  let ji := p.extra_info.enum.foldl (nodeExtraStep env gsv wn) ji
  let ji :=
    match findNode env wn with
    | some w =>
      if !w.disabled then
        (match env.prettyPath wn gsv with
         | some path => setKey ji (.OutputFilename 0) (.s path)
         | none => ji)
      else ji
    | none => ji
  match ctx.framesMap wn with
  | some se => setKey ji .Frames (.s (toString se.1 ++ "-" ++ toString se.2))
  | none => ji

/-- Per-node clone-and-update of the job dict (source lines 1576–1628 /
1704–1756): the base updates followed by the render-order dependency step of
lines 1615–1628 / 1743–1756, reading the shared accumulator. -/
def nodeJobInfo (env : Env) (p : Params) (gsv : Option Combo) (ctx : NodeCtx)
    (byRO : RoMap) (wn : String) : JobInfo :=
  let ji := nodeJobBase env p gsv ctx wn
  if p.render_order_dependencies then
    let o := orderOfEnv env wn
    let idx := idxOfInt ctx.unique o
    if idx > 0 then
      match roLookup byRO (ctx.unique.getD (idx - 1) 0) with
      | some ds => depWritesAll ji ctx.depCount ds
      | none => ji
    else ji
  else ji

/-- Per-node clone-and-update of the plugin dict (source lines 1577–1608 /
1705–1736). -/
def nodePluginInfo (env : Env) (p : Params) (_gsv : Option Combo) (ctx : NodeCtx)
    (wn : String) : JobInfo :=
  let pli := ctx.basePlugin
  let pli := if !p.write_nodes_as_tasks && isMovieEnv env wn then
      setKey pli .BatchModeIsMovie (.s "True") else pli
  setKey pli .WriteNode (.s wn)

/-- The `for write_node in sorted_write_nodes` loop: submit, then record the
id under the node's render order in the shared accumulator. -/
def runNodes (env : Env) (p : Params) (gsv : Option Combo) (passIdx : Nat)
    (ctx : NodeCtx) : List String → SubState → SubState
  | [], st => st
  | wn :: ws, st =>
    runNodes env p gsv passIdx ctx ws
      (doSubmit env passIdx (orderOfEnv env wn)
        (nodeJobInfo env p gsv ctx st.byRO wn)
        (nodePluginInfo env p gsv ctx wn) st)

/-- One pass of `submit()` for one (possibly absent) GSV combination: the
three-way branch of lines 1529–1645 (GSV) and 1655–1776 (non-GSV). -/
def singlePass (env : Env) (p : Params) (gsv : Option Combo) (passIdx : Nat)
    (st : SubState) : SubState :=
  let ji := prepareJobInfo env p gsv
  let pli := preparePluginInfo env p gsv
  if p.write_nodes_as_tasks && wLen p.write_nodes > 1 then
    doSubmit env passIdx 0 ji pli st
  else if (p.write_nodes_as_separate_jobs || p.render_order_dependencies)
          && wLen p.write_nodes > 1 then
    runNodes env p gsv passIdx (mkNodeCtx env p gsv ji pli) (sortedWriteNodes env p) st
  else
    doSubmit env passIdx 0 ji pli st

/-- The auto-discovery and demotion step of `submit()` (source lines
1497–1515). -/
def autoDiscover (env : Env) (p : Params) : Params :=
  if (p.write_nodes_as_separate_jobs || p.render_order_dependencies)
     && !wTruthy p.write_nodes then
    if !((env.nodes.filter (fun w => !w.disabled)).map (·.name)).isEmpty then
      { p with write_nodes := some ((env.nodes.filter (fun w => !w.disabled)).map (·.name)) }
    else { p with write_nodes_as_separate_jobs := false,
                  render_order_dependencies := false }
  else p

/-- `NukeSubmission.submit` (source lines 1480–1778): one shared
`jobs_by_render_order` accumulator for the whole invocation; with GSV active
the passes iterate over the combinations, otherwise a single pass runs. -/
def submitModel (env : Env) (st : InitState) : RoMap × List SubEntry :=
  let p := autoDiscover env st.p
  if gsvTruthy p.graph_scope_variables && !st.combos.isEmpty then
    let fin := st.combos.enum.foldl
      (fun acc ic => singlePass env p (some ic.2) ic.1 acc) SubState.empty
    (fin.byRO, fin.trace)
  else
    let fin := singlePass env p none 0 SubState.empty
    (fin.byRO, fin.trace)

/-- `submit_nuke_script`: construct, then submit.  Errors of the constructor
happen before any connection call, hence the empty trace. -/
def runSubmission (env : Env) (p : Params) : Except SubErr RoMap × List SubEntry :=
  match initModel env p with
  | .error e => (.error e, [])
  | .ok st =>
    let r := submitModel env st
    (.ok r.1, r.2)

/-! ## Dictionary lemmas -/

theorem jLookup_setKey (ji : JobInfo) (k k' : JKey) (v : JVal) :
    jLookup (setKey ji k v) k' = if k' = k then some v else jLookup ji k' := by
  induction ji with
  | nil =>
    simp only [setKey, jLookup]
    by_cases h : k' = k
    · subst h; simp
    · rw [if_neg (fun hh => h hh.symm), if_neg h]
  | cons hd tl ih =>
    obtain ⟨hk, hv⟩ := hd
    simp only [setKey]
    by_cases h1 : hk = k
    · subst h1
      simp only [if_pos rfl, jLookup]
      by_cases h2 : hk = k'
      · subst h2; simp
      · rw [if_neg h2, if_neg (fun hh => h2 hh.symm), if_neg h2]
    · rw [if_neg h1]
      simp only [jLookup]
      by_cases h2 : hk = k'
      · subst h2
        rw [if_pos rfl, if_pos rfl, if_neg (fun hh : hk = k => h1 hh)]
      · rw [if_neg h2, if_neg h2, ih]

theorem jLookup_foldl_pres {β : Type} (g : JobInfo → β → JobInfo) (k : JKey)
    (h : ∀ acc b, jLookup (g acc b) k = jLookup acc k) :
    ∀ (l : List β) (acc : JobInfo), jLookup (l.foldl g acc) k = jLookup acc k := by
  intro l
  induction l with
  | nil => intro acc; rfl
  | cons b bs ih => intro acc; rw [List.foldl_cons, ih, h]

theorem jLookup_depWrites_ne (k : JKey) (hk : ∀ i, k ≠ .JobDependency i) :
    ∀ (ds : List String) (ji : JobInfo) (n : Nat),
      jLookup (depWrites ji n ds) k = jLookup ji k := by
  intro ds
  induction ds with
  | nil => intro ji n; rfl
  | cons d ds ih =>
    intro ji n
    rw [depWrites, ih]
    by_cases hd : d.data.isEmpty
    · simp [hd]
    · simp only [hd, Bool.not_false, if_pos]
      rw [jLookup_setKey, if_neg (hk n)]

theorem jLookup_depWritesAll_ne (k : JKey) (hk : ∀ i, k ≠ .JobDependency i) :
    ∀ (ds : List String) (ji : JobInfo) (n : Nat),
      jLookup (depWritesAll ji n ds) k = jLookup ji k := by
  intro ds
  induction ds with
  | nil => intro ji n; rfl
  | cons d ds ih =>
    intro ji n
    rw [depWritesAll, ih, jLookup_setKey, if_neg (hk n)]

theorem jLookup_depWritesAll_dep :
    ∀ (ds : List String) (ji : JobInfo) (n i : Nat),
      jLookup (depWritesAll ji n ds) (.JobDependency i) =
        if n ≤ i ∧ i - n < ds.length then some (.s (ds.getD (i - n) ""))
        else jLookup ji (.JobDependency i) := by
  intro ds
  induction ds with
  | nil =>
    intro ji n i
    rw [depWritesAll, if_neg]
    simp
  | cons d ds ih =>
    intro ji n i
    rw [depWritesAll, ih, jLookup_setKey]
    by_cases hin : i = n
    · subst hin
      rw [if_neg (by omega), if_pos rfl, if_pos ⟨Nat.le_refl i, by simp⟩]
      rw [Nat.sub_self]
      rfl
    · have hne : ¬(JKey.JobDependency i = JKey.JobDependency n) := by
        simp [hin]
      by_cases h1 : n + 1 ≤ i ∧ i - (n + 1) < ds.length
      · rw [if_pos h1, if_pos (by constructor <;> [omega; (simp only [List.length_cons]; omega)])]
        have hix : i - n = (i - (n + 1)) + 1 := by omega
        rw [hix, List.getD_cons_succ]
      · rw [if_neg h1, if_neg hne, if_neg (by simp only [List.length_cons]; omega)]

theorem jLookup_extraInfoWrites_ne (env : Env) (p : Params) (gsv : Option Combo)
    (k : JKey) (hk : ∀ i, k ≠ .ExtraInfo i) :
    ∀ ji : JobInfo, jLookup (extraInfoWrites env p gsv ji) k = jLookup ji k := by
  intro ji
  unfold extraInfoWrites
  refine jLookup_foldl_pres _ _ (fun acc ie => ?_) _ _
  by_cases hb : hasBrace ie.2 <;>
    simp only [hb, if_pos, if_neg, Bool.false_eq_true, if_false, if_true] <;>
    rw [jLookup_setKey, if_neg (hk ie.1)]

theorem jLookup_addOutputFilenames_ne (env : Env) (p : Params) (gsv : Option Combo)
    (k : JKey) (hk : ∀ i, k ≠ .OutputFilename i) :
    ∀ ji : JobInfo, jLookup (addOutputFilenames env p gsv ji) k = jLookup ji k := by
  intro ji
  unfold addOutputFilenames
  split
  · refine jLookup_foldl_pres _ _ (fun acc iw => ?_) _ _
    cases findNode env iw.2 with
    | none => rfl
    | some w =>
      by_cases hd : w.disabled
      · simp [hd]
      · simp only [hd, Bool.not_false, if_pos]
        cases env.prettyPath iw.2 gsv with
        | none => rfl
        | some path => rw [jLookup_setKey, if_neg (hk iw.1)]
  · split
    · cases findNode env (headW p.write_nodes) with
      | none => rfl
      | some w =>
        by_cases hd : w.disabled
        · simp [hd]
        · simp only [hd, Bool.not_false, if_pos]
          cases env.prettyPath (headW p.write_nodes) gsv with
          | none => rfl
          | some path => rw [jLookup_setKey, if_neg (hk 0)]
    · split
      · refine jLookup_foldl_pres _ _ (fun acc iw => ?_) _ _
        cases env.prettyPath iw.2.name gsv with
        | none => rfl
        | some path => rw [jLookup_setKey, if_neg (hk iw.1)]
      · rfl

theorem jLookup_baseJobInfo_dep (env : Env) (p : Params) (gsv : Option Combo) (i : Nat) :
    jLookup (baseJobInfo env p gsv) (.JobDependency i) = none := by
  simp [baseJobInfo, jLookup]

theorem jLookup_ite (c : Prop) [Decidable c] (a b : JobInfo) (k : JKey) :
    jLookup (if c then a else b) k = if c then jLookup a k else jLookup b k := by
  split <;> rfl

/-- With no caller-supplied `job_dependencies`, `_prepare_job_info` emits no
`JobDependency` keys at all. -/
theorem prepareJobInfo_dep_none (env : Env) (p : Params) (gsv : Option Combo) (i : Nat)
    (hjd : p.job_dependencies = none) :
    jLookup (prepareJobInfo env p gsv) (.JobDependency i) = none := by
  unfold prepareJobInfo
  rw [hjd]
  simp only [jLookup_ite, jLookup_setKey,
    jLookup_extraInfoWrites_ne env p gsv (.JobDependency i) (fun j h => nomatch h),
    jLookup_addOutputFilenames_ne env p gsv (.JobDependency i) (fun j h => nomatch h),
    jLookup_baseJobInfo_dep]
  simp

/-! ## Sorting lemmas -/

theorem insertLe_perm (le : α → α → Bool) (a : α) :
    ∀ l : List α, List.Perm (insertLe le a l) (a :: l) := by
  intro l
  induction l with
  | nil => rfl
  | cons b l ih =>
    rw [insertLe]
    split
    · rfl
    · exact (ih.cons b).trans (List.Perm.swap a b l)

theorem pySort_perm (le : α → α → Bool) : ∀ l : List α, List.Perm (pySort le l) l := by
  intro l
  induction l with
  | nil => rfl
  | cons a l ih => exact (insertLe_perm le a (pySort le l)).trans (ih.cons a)

theorem pairwise_insertLe {le : α → α → Bool}
    (htot : ∀ a b, le a b = true ∨ le b a = true)
    (htrans : ∀ a b c, le a b = true → le b c = true → le a c = true) (a : α) :
    ∀ l : List α, l.Pairwise (fun x y => le x y = true) →
      (insertLe le a l).Pairwise (fun x y => le x y = true) := by
  intro l
  induction l with
  | nil => intro _; simp [insertLe]
  | cons b l ih =>
    intro hp
    rw [List.pairwise_cons] at hp
    obtain ⟨hb, hl⟩ := hp
    rw [insertLe]
    by_cases hab : le a b = true
    · rw [if_pos hab, List.pairwise_cons]
      refine ⟨fun a' ha' => ?_, List.Pairwise.cons hb hl⟩
      rcases List.mem_cons.mp ha' with h | h
      · subst h; exact hab
      · exact htrans a b a' hab (hb a' h)
    · rw [if_neg hab, List.pairwise_cons]
      refine ⟨fun a' ha' => ?_, ih hl⟩
      rcases List.mem_cons.mp ((insertLe_perm le a l).mem_iff.mp ha') with h | h
      · rw [h]
        rcases htot a b with h' | h'
        · exact absurd h' hab
        · exact h'
      · exact hb a' h

theorem pySort_pairwise {le : α → α → Bool}
    (htot : ∀ a b, le a b = true ∨ le b a = true)
    (htrans : ∀ a b c, le a b = true → le b c = true → le a c = true) :
    ∀ l : List α, (pySort le l).Pairwise (fun x y => le x y = true) := by
  intro l
  induction l with
  | nil => simp [pySort]
  | cons a l ih => exact pairwise_insertLe htot htrans a _ ih

theorem intLe_total (a b : Int) : intLe a b = true ∨ intLe b a = true := by
  rcases le_total a b with h | h
  · exact Or.inl (by simp [intLe, h])
  · exact Or.inr (by simp [intLe, h])

theorem intLe_trans (a b c : Int) (h1 : intLe a b = true) (h2 : intLe b c = true) :
    intLe a c = true := by
  simp only [intLe, decide_eq_true_eq] at h1 h2 ⊢
  exact le_trans h1 h2

theorem pySort_intLe_sorted (l : List Int) : (pySort intLe l).Sorted (· ≤ ·) := by
  have := pySort_pairwise intLe_total intLe_trans l
  exact this.imp (fun h => by simpa [intLe] using h)

/-! ## expand_range lemmas -/

theorem expandPart_ne_needs (p : List Char) :
    expandPart p ≠ .error .needsSubstitution := by
  intro h
  unfold expandPart at h
  repeat' split at h
  all_goals simp_all

theorem expandParts_ne_needs : ∀ ps : List (List Char),
    expandParts ps ≠ .error .needsSubstitution := by
  intro ps
  induction ps with
  | nil => intro h; simp [expandParts] at h
  | cons p ps ih =>
    intro h
    rw [expandParts] at h
    cases hp : expandPart p with
    | error e =>
      simp only [hp] at h
      exact expandPart_ne_needs p (h ▸ hp)
    | ok xs =>
      simp only [hp] at h
      cases hq : expandParts ps with
      | error e =>
        simp only [hq] at h
        exact ih (h ▸ hq)
      | ok rest => simp [hq] at h

/-! ## submit() lemmas -/

theorem autoDiscover_gsv (env : Env) (p : Params) :
    (autoDiscover env p).graph_scope_variables = p.graph_scope_variables := by
  unfold autoDiscover
  split
  · split <;> rfl
  · rfl

theorem autoDiscover_jd (env : Env) (p : Params) :
    (autoDiscover env p).job_dependencies = p.job_dependencies := by
  unfold autoDiscover
  split
  · split <;> rfl
  · rfl

theorem jLookup_nodeExtraFold_ne (env : Env) (gsv : Option Combo) (wn : String)
    (k : JKey) (hk : ∀ i, k ≠ .ExtraInfo i) :
    ∀ (l : List (Nat × String)) (acc : JobInfo),
      jLookup (l.foldl (nodeExtraStep env gsv wn) acc) k = jLookup acc k := by
  refine jLookup_foldl_pres _ _ (fun acc ie => ?_)
  unfold nodeExtraStep
  split
  · rw [jLookup_setKey, if_neg (hk ie.1)]
  · rfl

/-- None of the per-node pre-dependency updates of the job dict touch the
`JobDependency` key family. -/
theorem nodeJobBase_dep (env : Env) (p : Params) (gsv : Option Combo) (ctx : NodeCtx)
    (wn : String) (i : Nat)
    (hbase : ∀ j, jLookup ctx.baseJob (.JobDependency j) = none) :
    jLookup (nodeJobBase env p gsv ctx wn) (.JobDependency i) = none := by
  unfold nodeJobBase
  repeat' split
  all_goals
    simp only [jLookup_setKey,
      jLookup_nodeExtraFold_ne env gsv wn (.JobDependency i) (fun j => by simp)]
  all_goals (repeat' split)
  all_goals simp_all [jLookup_setKey, hbase i]

/-- The render-order dependency step of `nodeJobInfo`, read off from the shared
accumulator: with no user dependencies, `JobDependency0..K` become exactly the
ids recorded under the immediately preceding unique render order. -/
theorem nodeJobInfo_dep_pos (env : Env) (p : Params) (gsv : Option Combo) (ctx : NodeCtx)
    (byRO : RoMap) (wn : String) (ds : List String)
    (hrod : p.render_order_dependencies = true)
    (hidx : 0 < idxOfInt ctx.unique (orderOfEnv env wn))
    (hprev : roLookup byRO
      (ctx.unique.getD (idxOfInt ctx.unique (orderOfEnv env wn) - 1) 0) = some ds)
    (hdc : ctx.depCount = 0)
    (hbase : ∀ j, jLookup ctx.baseJob (.JobDependency j) = none) :
    ∀ i, jLookup (nodeJobInfo env p gsv ctx byRO wn) (.JobDependency i)
      = if i < ds.length then some (.s (ds.getD i "")) else none := by
  intro i
  unfold nodeJobInfo
  simp only [hrod]
  rw [if_pos trivial, if_pos hidx]
  simp only [hprev]
  rw [hdc, jLookup_depWritesAll_dep, nodeJobBase_dep env p gsv ctx wn i hbase]
  by_cases hi : i < ds.length
  · rw [if_pos ⟨Nat.zero_le i, by omega⟩, if_pos hi, Nat.sub_zero]
  · rw [if_neg (by omega), if_neg hi]

/-- A node whose render order is the lowest unique order receives no
`JobDependency` entries at all. -/
theorem nodeJobInfo_dep_zero (env : Env) (p : Params) (gsv : Option Combo) (ctx : NodeCtx)
    (byRO : RoMap) (wn : String)
    (hidx : idxOfInt ctx.unique (orderOfEnv env wn) = 0)
    (hbase : ∀ j, jLookup ctx.baseJob (.JobDependency j) = none) :
    ∀ i, jLookup (nodeJobInfo env p gsv ctx byRO wn) (.JobDependency i) = none := by
  intro i
  unfold nodeJobInfo
  cases hr : p.render_order_dependencies with
  | false =>
    simp only [hr, Bool.false_eq_true, if_false]
    exact nodeJobBase_dep env p gsv ctx wn i hbase
  | true =>
    simp only [hr, hidx, if_true]
    rw [if_neg (by omega)]
    exact nodeJobBase_dep env p gsv ctx wn i hbase

/-! ## Trace characterization of the per-node submission loop -/

/-- The `jobs_by_render_order` accumulator reconstructed from a trace. -/
def byROof (hist : List SubEntry) : RoMap :=
  hist.foldl (fun m e => roAdd m e.ro e.jid) []

/-- The entry submitted for `wn` when `hist` has already been submitted. -/
def mkE (env : Env) (p : Params) (gsv : Option Combo) (passIdx : Nat) (ctx : NodeCtx)
    (hist : List SubEntry) (wn : String) : SubEntry :=
  ⟨passIdx, orderOfEnv env wn, env.jobIds hist.length,
   nodeJobInfo env p gsv ctx (byROof hist) wn,
   nodePluginInfo env p gsv ctx wn⟩

/-- The sub-trace generated by the per-node loop after a given history. -/
def entriesOf (env : Env) (p : Params) (gsv : Option Combo) (passIdx : Nat)
    (ctx : NodeCtx) : List SubEntry → List String → List SubEntry
  | _, [] => []
  | hist, wn :: ws =>
    mkE env p gsv passIdx ctx hist wn ::
      entriesOf env p gsv passIdx ctx (hist ++ [mkE env p gsv passIdx ctx hist wn]) ws

/-- The ids a trace has recorded under render order `o`. -/
def groupJids (hist : List SubEntry) (o : Int) : List String :=
  (hist.filter (fun e => decide (e.ro = o))).map (fun e => e.jid)

/-- `dict.get` on a list value: absent iff empty. -/
def olist (l : List String) : Option (List String) :=
  if l.isEmpty then none else some l

/-- The ids predicted for the jobs among the first `k` whose render order is
`o`, jobs being numbered from `base`. -/
def specGroup (env : Env) (os : List Int) (base k : Nat) (o : Int) : List String :=
  ((List.range k).filter (fun j => decide (os.getD j 0 = o))).map
    (fun j => env.jobIds (base + j))

theorem roLookup_map_add (o' : Int) (jid : String) :
    ∀ (m : RoMap) (o : Int),
      roLookup (m.map (fun e => if e.1 = o' then (e.1, e.2 ++ [jid]) else e)) o =
        match roLookup m o with
        | some l => if o = o' then some (l ++ [jid]) else some l
        | none => none := by
  intro m
  induction m with
  | nil => intro o; rfl
  | cons hd tl ih =>
    intro o
    obtain ⟨k, v⟩ := hd
    rw [List.map_cons]
    have hh : (if ((k, v) : Int × List String).1 = o' then ((k, v).1, (k, v).2 ++ [jid])
          else (k, v)) = if k = o' then (k, v ++ [jid]) else (k, v) := by
      by_cases hk : k = o' <;> simp [hk]
    rw [hh]
    by_cases hk' : k = o' <;> by_cases hko : k = o
    · subst hk'; subst hko; rw [if_pos rfl]; simp [roLookup]
    · subst hk'; rw [if_pos rfl]; simp [roLookup, hko, ih]
    · subst hko; rw [if_neg hk']; simp [roLookup, hk']
    · rw [if_neg hk']; simp [roLookup, hk', hko, ih]

theorem roLookup_append_one (o' : Int) (jid : String) :
    ∀ (m : RoMap) (o : Int),
      roLookup (m ++ [(o', [jid])]) o =
        match roLookup m o with
        | some l => some l
        | none => if o' = o then some [jid] else none := by
  intro m
  induction m with
  | nil => intro o; rfl
  | cons hd tl ih =>
    intro o
    obtain ⟨k, v⟩ := hd
    simp only [List.cons_append, roLookup]
    by_cases hko : k = o
    · rw [if_pos hko, if_pos hko]
    · rw [if_neg hko, if_neg hko]
      exact ih o

theorem roLookup_roAdd (m : RoMap) (o' : Int) (jid : String) (o : Int) :
    roLookup (roAdd m o' jid) o =
      if o = o' then some (((roLookup m o').getD []) ++ [jid]) else roLookup m o := by
  unfold roAdd
  cases h' : roLookup m o' with
  | some l =>
    rw [roLookup_map_add]
    by_cases ho : o = o'
    · subst ho
      rw [h']
      simp
    · cases h : roLookup m o <;> simp [ho, h]
  | none =>
    rw [roLookup_append_one]
    by_cases ho : o = o'
    · subst ho
      rw [h']
      simp
    · have ho2 : ¬o' = o := fun hh => ho hh.symm
      cases h : roLookup m o <;> simp [ho, ho2, h]

theorem byROof_append (hist : List SubEntry) (e : SubEntry) :
    byROof (hist ++ [e]) = roAdd (byROof hist) e.ro e.jid := by
  unfold byROof
  rw [List.foldl_append]
  rfl

theorem groupJids_append (hist : List SubEntry) (e : SubEntry) (o : Int) :
    groupJids (hist ++ [e]) o =
      groupJids hist o ++ (if e.ro = o then [e.jid] else []) := by
  unfold groupJids
  rw [List.filter_append, List.map_append]
  congr 1
  by_cases h : e.ro = o <;> simp [h]

theorem olist_snoc (g : List String) (a : String) :
    some ((olist g).getD [] ++ [a]) = olist (g ++ [a]) := by
  cases g <;> simp [olist]

theorem olist_of_ne_nil (g : List String) (h : g ≠ []) : olist g = some g := by
  cases g with
  | nil => exact absurd rfl h
  | cons x xs => rfl

theorem roLookup_byROof (hist : List SubEntry) : ∀ o : Int,
    roLookup (byROof hist) o = olist (groupJids hist o) := by
  induction hist using List.reverseRecOn with
  | nil => intro o; rfl
  | append_singleton hist e ih =>
    intro o
    rw [byROof_append, roLookup_roAdd, groupJids_append]
    by_cases ho : o = e.ro
    · subst ho
      rw [if_pos rfl, if_pos rfl, ih e.ro, olist_snoc]
    · rw [if_neg ho, if_neg (fun hh => ho hh.symm), ih o, List.append_nil]

/-- The per-node loop, from a state whose accumulator and counter agree with
its trace, extends the trace by exactly `entriesOf` and keeps the agreement. -/
theorem runNodes_spec (env : Env) (p : Params) (gsv : Option Combo) (passIdx : Nat)
    (ctx : NodeCtx) : ∀ (ws : List String) (st : SubState),
    st.byRO = byROof st.trace → st.count = st.trace.length →
    runNodes env p gsv passIdx ctx ws st =
      ⟨byROof (st.trace ++ entriesOf env p gsv passIdx ctx st.trace ws),
       (st.trace ++ entriesOf env p gsv passIdx ctx st.trace ws).length,
       st.trace ++ entriesOf env p gsv passIdx ctx st.trace ws⟩ := by
  intro ws
  induction ws with
  | nil =>
    intro st h1 h2
    obtain ⟨b, c, t⟩ := st
    simp only at h1 h2
    subst h1
    subst h2
    simp [runNodes, entriesOf]
  | cons wn ws ih =>
    intro st h1 h2
    rw [runNodes]
    have hE : doSubmit env passIdx (orderOfEnv env wn)
        (nodeJobInfo env p gsv ctx st.byRO wn) (nodePluginInfo env p gsv ctx wn) st =
        ⟨byROof (st.trace ++ [mkE env p gsv passIdx ctx st.trace wn]),
         st.trace.length + 1,
         st.trace ++ [mkE env p gsv passIdx ctx st.trace wn]⟩ := by
      unfold doSubmit
      rw [h1, h2, byROof_append]
      rfl
    rw [hE]
    rw [ih ⟨byROof (st.trace ++ [mkE env p gsv passIdx ctx st.trace wn]),
           st.trace.length + 1,
           st.trace ++ [mkE env p gsv passIdx ctx st.trace wn]⟩ rfl (by simp)]
    rw [entriesOf]
    simp [List.append_assoc]

theorem entriesOf_length (env : Env) (p : Params) (gsv : Option Combo) (passIdx : Nat)
    (ctx : NodeCtx) : ∀ (ws : List String) (hist : List SubEntry),
      (entriesOf env p gsv passIdx ctx hist ws).length = ws.length := by
  intro ws
  induction ws with
  | nil => intro hist; rfl
  | cons wn ws ih =>
    intro hist
    rw [entriesOf]
    simp [ih]

theorem entriesOf_getD (env : Env) (p : Params) (gsv : Option Combo) (passIdx : Nat)
    (ctx : NodeCtx) (dflt : SubEntry) :
    ∀ (ws : List String) (hist : List SubEntry) (k : Nat), k < ws.length →
      (entriesOf env p gsv passIdx ctx hist ws).getD k dflt =
        mkE env p gsv passIdx ctx
          (hist ++ (entriesOf env p gsv passIdx ctx hist ws).take k) (ws.getD k "") := by
  intro ws
  induction ws with
  | nil =>
    intro hist k hk
    exact absurd hk (Nat.not_lt_zero k)
  | cons wn ws ih =>
    intro hist k hk
    cases k with
    | zero =>
      rw [entriesOf]
      simp
    | succ j =>
      rw [entriesOf]
      rw [List.getD_cons_succ, List.take_succ_cons]
      rw [ih (hist ++ [mkE env p gsv passIdx ctx hist wn]) j
            (by simpa using Nat.lt_of_succ_lt_succ hk)]
      rw [List.getD_cons_succ]
      congr 1
      rw [List.append_cons, List.append_assoc]
      simp

theorem groupJids_cons (e : SubEntry) (hist : List SubEntry) (o : Int) :
    groupJids (e :: hist) o = (if e.ro = o then [e.jid] else []) ++ groupJids hist o := by
  unfold groupJids
  rw [List.filter_cons]
  by_cases h : e.ro = o <;> simp [h]

theorem specGroup_succ_head (env : Env) (a : Int) (os : List Int) (b j : Nat) (o : Int) :
    specGroup env (a :: os) b (j + 1) o =
      (if a = o then [env.jobIds b] else []) ++ specGroup env os (b + 1) j o := by
  unfold specGroup
  rw [List.range_succ_eq_map, List.filter_cons]
  have hfm : (List.map Nat.succ (List.range j)).filter
        (fun t => decide ((a :: os).getD t 0 = o)) =
      ((List.range j).filter (fun t => decide (os.getD t 0 = o))).map Nat.succ := by
    rw [List.filter_map]
    congr 1
  rw [hfm]
  have hmap : ∀ F : List Nat, (F.map Nat.succ).map (fun t => env.jobIds (b + t))
      = F.map (fun t => env.jobIds (b + 1 + t)) := by
    intro F
    rw [List.map_map]
    apply List.map_congr_left
    intro t _
    show env.jobIds (b + (t + 1)) = env.jobIds (b + 1 + t)
    congr 1
    omega
  by_cases ha : a = o
  · rw [if_pos (by simp [ha]), if_pos ha, List.map_cons, hmap]
    simp
  · rw [if_neg (by simp [ha]), if_neg ha, hmap, List.nil_append]

/-- The ids a prefix of the generated sub-trace has recorded under an order
are exactly the predicted ones. -/
theorem groupJids_take_entriesOf (env : Env) (p : Params) (gsv : Option Combo)
    (passIdx : Nat) (ctx : NodeCtx) (o : Int) :
    ∀ (ws : List String) (hist : List SubEntry) (k : Nat), k ≤ ws.length →
      groupJids ((entriesOf env p gsv passIdx ctx hist ws).take k) o =
        specGroup env (ws.map (orderOfEnv env)) hist.length k o := by
  intro ws
  induction ws with
  | nil =>
    intro hist k hk
    have hk0 : k = 0 := Nat.le_zero.mp hk
    subst hk0
    rfl
  | cons wn ws ih =>
    intro hist k hk
    cases k with
    | zero => rfl
    | succ j =>
      rw [entriesOf, List.take_succ_cons, groupJids_cons,
          ih (hist ++ [mkE env p gsv passIdx ctx hist wn]) j
            (Nat.succ_le_succ_iff.mp (by simpa using hk))]
      rw [List.map_cons, specGroup_succ_head]
      congr 2
      simp

/-! ## `sorted(set(...))` and `list.index` lemmas -/

theorem firstDedupGo_mem [DecidableEq α] :
    ∀ (l seen : List α) (a : α), a ∈ firstDedupGo seen l ↔ (a ∈ l ∧ a ∉ seen) := by
  intro l
  induction l with
  | nil => intro seen a; simp [firstDedupGo]
  | cons x xs ih =>
    intro seen a
    rw [firstDedupGo]
    by_cases hx : seen.contains x
    · rw [if_pos hx, ih]
      have hxm : x ∈ seen := by simpa using hx
      constructor
      · rintro ⟨h1, h2⟩
        exact ⟨List.mem_cons_of_mem x h1, h2⟩
      · rintro ⟨h1, h2⟩
        rcases List.mem_cons.mp h1 with h | h
        · exact absurd (h ▸ hxm) h2
        · exact ⟨h, h2⟩
    · rw [if_neg hx]
      have hxm : x ∉ seen := by simpa using hx
      simp only [List.mem_cons, ih]
      constructor
      · rintro (h | ⟨h1, h2⟩)
        · subst h
          exact ⟨Or.inl rfl, hxm⟩
        · exact ⟨Or.inr h1, fun hc => h2 (Or.inr hc)⟩
      · rintro ⟨h1 | h1, h2⟩
        · exact Or.inl h1
        · by_cases hax : a = x
          · exact Or.inl hax
          · refine Or.inr ⟨h1, fun hc => ?_⟩
            rcases hc with h' | h'
            · exact hax h'
            · exact h2 h'

theorem firstDedup_mem [DecidableEq α] (l : List α) (a : α) :
    a ∈ firstDedup l ↔ a ∈ l := by
  rw [firstDedup, firstDedupGo_mem]
  simp

theorem firstDedupGo_nodup [DecidableEq α] :
    ∀ (l seen : List α), (firstDedupGo seen l).Nodup := by
  intro l
  induction l with
  | nil => intro seen; simp [firstDedupGo]
  | cons x xs ih =>
    intro seen
    rw [firstDedupGo]
    by_cases hx : seen.contains x
    · rw [if_pos hx]
      exact ih seen
    · rw [if_neg hx, List.nodup_cons]
      refine ⟨fun hc => ?_, ih (x :: seen)⟩
      exact ((firstDedupGo_mem xs (x :: seen) x).mp hc).2 (List.mem_cons_self x seen)

theorem uniqueOrders_mem (os : List Int) (a : Int) : a ∈ uniqueOrders os ↔ a ∈ os := by
  rw [uniqueOrders, (pySort_perm intLe (firstDedup os)).mem_iff, firstDedup_mem]

theorem uniqueOrders_nodup (os : List Int) : (uniqueOrders os).Nodup :=
  (pySort_perm intLe (firstDedup os)).nodup_iff.mpr (firstDedupGo_nodup os [])

theorem uniqueOrders_sorted_lt (os : List Int) : (uniqueOrders os).Pairwise (· < ·) := by
  have hle : (uniqueOrders os).Pairwise (fun a b => intLe a b = true) :=
    pySort_pairwise intLe_total intLe_trans (firstDedup os)
  have hne := uniqueOrders_nodup os
  exact (hle.and hne).imp (fun hab => by
    obtain ⟨h1, h2⟩ := hab
    simp only [intLe, decide_eq_true_eq] at h1
    exact lt_of_le_of_ne h1 h2)

theorem idxOfInt_lt_length : ∀ (l : List Int) (a : Int), a ∈ l → idxOfInt l a < l.length := by
  intro l
  induction l with
  | nil => intro a ha; cases ha
  | cons x xs ih =>
    intro a ha
    rw [idxOfInt]
    by_cases hx : x = a
    · rw [if_pos hx]
      simp
    · rw [if_neg hx]
      have : a ∈ xs := by
        rcases List.mem_cons.mp ha with h | h
        · exact absurd h.symm hx
        · exact h
      simpa using ih a this

theorem getD_idxOfInt : ∀ (l : List Int) (a : Int), a ∈ l → l.getD (idxOfInt l a) 0 = a := by
  intro l
  induction l with
  | nil => intro a ha; cases ha
  | cons x xs ih =>
    intro a ha
    rw [idxOfInt]
    by_cases hx : x = a
    · rw [if_pos hx]
      exact hx
    · rw [if_neg hx, List.getD_cons_succ]
      refine ih a ?_
      rcases List.mem_cons.mp ha with h | h
      · exact absurd h.symm hx
      · exact h

theorem getD_mem_int (l : List Int) (j : Nat) (hj : j < l.length) : l.getD j 0 ∈ l := by
  rw [List.getD_eq_getElem l 0 hj]
  exact List.getElem_mem hj

theorem mem_getD_index (l : List Int) (a : Int) (h : a ∈ l) :
    ∃ j, j < l.length ∧ l.getD j 0 = a := by
  obtain ⟨j, hj, hja⟩ := List.mem_iff_getElem.mp h
  exact ⟨j, hj, by rw [List.getD_eq_getElem l 0 hj, hja]⟩

theorem pairwise_lt_getD (l : List Int) (h : l.Pairwise (· < ·)) (i j : Nat)
    (hij : i < j) (hj : j < l.length) : l.getD i 0 < l.getD j 0 := by
  have hi : i < l.length := lt_trans hij hj
  rw [List.getD_eq_getElem l 0 hi, List.getD_eq_getElem l 0 hj]
  exact List.pairwise_iff_getElem.mp h i j hi hj hij

theorem pairwise_le_getD (l : List Int) (h : l.Pairwise (· ≤ ·)) (i j : Nat)
    (hij : i ≤ j) (hj : j < l.length) : l.getD i 0 ≤ l.getD j 0 := by
  rcases Nat.lt_or_ge i j with hlt | hge
  · have hi : i < l.length := lt_trans hlt hj
    rw [List.getD_eq_getElem l 0 hi, List.getD_eq_getElem l 0 hj]
    exact List.pairwise_iff_getElem.mp h i j hi hj hlt
  · have : i = j := Nat.le_antisymm hij hge
    subst this
    exact le_refl _

theorem getD_map_order (env : Env) :
    ∀ (ws : List String) (k : Nat), k < ws.length →
      (ws.map (orderOfEnv env)).getD k 0 = orderOfEnv env (ws.getD k "") := by
  intro ws
  induction ws with
  | nil => intro k hk; exact absurd hk (Nat.not_lt_zero k)
  | cons wn ws ih =>
    intro k hk
    cases k with
    | zero => rfl
    | succ j =>
      rw [List.map_cons, List.getD_cons_succ, List.getD_cons_succ]
      exact ih j (by simpa using Nat.lt_of_succ_lt_succ hk)

/-- Ascending traversal: when job `k`'s order is not the lowest unique order,
the ids recorded under the immediately preceding unique order within the first
`k` jobs are already ALL of that order's ids, and there is at least one. -/
theorem specGroup_prefix_full (env : Env) (os : List Int) (k : Nat)
    (hk : k < os.length) (hasc : os.Pairwise (· ≤ ·))
    (hpos : 0 < idxOfInt (uniqueOrders os) (os.getD k 0)) :
    specGroup env os 0 k
        ((uniqueOrders os).getD (idxOfInt (uniqueOrders os) (os.getD k 0) - 1) 0) =
      specGroup env os 0 os.length
        ((uniqueOrders os).getD (idxOfInt (uniqueOrders os) (os.getD k 0) - 1) 0) ∧
    specGroup env os 0 k
        ((uniqueOrders os).getD (idxOfInt (uniqueOrders os) (os.getD k 0) - 1) 0) ≠ [] := by
  have ho_mem : os.getD k 0 ∈ os := getD_mem_int os k hk
  have ho_uq : os.getD k 0 ∈ uniqueOrders os := (uniqueOrders_mem os _).mpr ho_mem
  have hidx_lt : idxOfInt (uniqueOrders os) (os.getD k 0) < (uniqueOrders os).length :=
    idxOfInt_lt_length _ _ ho_uq
  have hgd : (uniqueOrders os).getD (idxOfInt (uniqueOrders os) (os.getD k 0)) 0
      = os.getD k 0 := getD_idxOfInt _ _ ho_uq
  have hprev_lt : (uniqueOrders os).getD (idxOfInt (uniqueOrders os) (os.getD k 0) - 1) 0
      < os.getD k 0 := by
    have := pairwise_lt_getD (uniqueOrders os) (uniqueOrders_sorted_lt os)
      (idxOfInt (uniqueOrders os) (os.getD k 0) - 1)
      (idxOfInt (uniqueOrders os) (os.getD k 0)) (by omega) hidx_lt
    rw [hgd] at this
    exact this
  have hprev_os : (uniqueOrders os).getD (idxOfInt (uniqueOrders os) (os.getD k 0) - 1) 0
      ∈ os := (uniqueOrders_mem os _).mp (getD_mem_int _ _ (by omega))
  constructor
  · unfold specGroup
    have hlen : os.length = k + (os.length - k) := by omega
    rw [hlen, List.range_add, List.filter_append, List.map_append]
    have h2 : (List.filter (fun t => decide (os.getD t 0
          = (uniqueOrders os).getD (idxOfInt (uniqueOrders os) (os.getD k 0) - 1) 0))
        ((List.range (os.length - k)).map (fun x => k + x))) = [] := by
      rw [List.filter_eq_nil_iff]
      intro a ha
      obtain ⟨t, ht, rfl⟩ := List.mem_map.mp ha
      have htb : k + t < os.length := by
        have := List.mem_range.mp ht
        omega
      have hle : os.getD k 0 ≤ os.getD (k + t) 0 :=
        pairwise_le_getD os hasc k (k + t) (Nat.le_add_right k t) htb
      simp only [decide_eq_true_eq]
      intro heq
      rw [heq] at hle
      omega
    rw [h2]
    simp
  · obtain ⟨j, hj, hjprev⟩ := mem_getD_index os _ hprev_os
    have hjk : j < k := by
      by_contra hge
      push_neg at hge
      have hle : os.getD k 0 ≤ os.getD j 0 := pairwise_le_getD os hasc k j hge hj
      rw [hjprev] at hle
      omega
    have hjmem : j ∈ (List.range k).filter (fun t => decide (os.getD t 0
        = (uniqueOrders os).getD (idxOfInt (uniqueOrders os) (os.getD k 0) - 1) 0)) :=
      List.mem_filter.mpr ⟨List.mem_range.mpr hjk,
        by simp only [decide_eq_true_eq]; exact hjprev⟩
    intro hnil
    unfold specGroup at hnil
    rw [List.map_eq_nil_iff] at hnil
    rw [hnil] at hjmem
    cases hjmem

/-- With an explicit non-empty write-node list, auto-discovery changes
nothing. -/
theorem autoDiscover_id (env : Env) (p : Params) (hw : wTruthy p.write_nodes = true) :
    autoDiscover env p = p := by
  unfold autoDiscover
  rw [hw]
  simp

/-- Placeholder entry for positional access into a trace. -/
def dE : SubEntry := ⟨0, 0, "", [], []⟩


/-! ## Shared claim helpers -/

/-- The mutual-exclusion check of `__init__` fires first, before any other
validation (source lines 165–171). -/
theorem initModel_bothModes (env : Env) (p : Params)
    (ht : p.write_nodes_as_tasks = true)
    (hm : p.write_nodes_as_separate_jobs = true ∨ p.render_order_dependencies = true) :
    initModel env p = .error .bothModes := by
  unfold initModel
  rcases hm with h | h
  · cases hrod : p.render_order_dependencies <;> simp [ht, h, hrod]
  · simp [ht, h]

def envW4 : Env := {}

def pW4 : Params :=
  { write_nodes_as_tasks := true, write_nodes_as_separate_jobs := true }

def envW9 : Env := {}

def pW9 : Params :=
  { write_nodes_as_tasks := true, render_order_dependencies := true }

def pW9ok : Params :=
  { frame_range := "1-10", render_order_dependencies := true }

/-! ## Claims -/

/-- Claim C4: requesting per-output-task mode (`write_nodes_as_tasks`)
together with per-output-job mode (`write_nodes_as_separate_jobs`, directly
or implied by `render_order_dependencies`) makes the whole invocation fail
in the constructor, and the trace of `submit_job` calls to the Connection
collaborator is empty — no farm state is created. -/
theorem claim_C4 (env : Env) (p : Params)
    (ht : p.write_nodes_as_tasks = true)
    (hm : p.write_nodes_as_separate_jobs = true ∨ p.render_order_dependencies = true) :
    runSubmission env p = (.error .bothModes, []) := by
  unfold runSubmission
  rw [initModel_bothModes env p ht hm]

/-- Witness for C4 at a concrete input: both modes requested, the result is
the mutual-exclusion error with zero submissions performed. -/
theorem claim_C4_witness :
    runSubmission envW4 pW4 = (.error .bothModes, []) :=
  claim_C4 envW4 pW4 rfl (Or.inl rfl)

/-- Claim C9: `render_order_dependencies = true` implicitly enables
per-output-job mode — every successfully constructed state has
`write_nodes_as_separate_jobs = true` — and consequently combining it with
`write_nodes_as_tasks` raises the same mutual-exclusion error with no
submission performed, even though `write_nodes_as_separate_jobs` itself was
passed as `false`. -/
theorem claim_C9 (env : Env) (p : Params)
    (hrod : p.render_order_dependencies = true) :
    (∀ st, initModel env p = .ok st → st.p.write_nodes_as_separate_jobs = true) ∧
    (p.write_nodes_as_tasks = true → runSubmission env p = (.error .bothModes, [])) := by
  constructor
  · intro st h
    unfold initModel at h
    simp only [hrod, if_true] at h
    repeat' split at h
    any_goals simp_all [gsvTruthy]
    all_goals (subst h; rfl)
  · intro ht
    unfold runSubmission
    rw [initModel_bothModes env p ht (Or.inr hrod)]

/-- Witness for C9: with `render_order_dependencies = true` the implicit
enabling and the mutual-exclusion error are both exhibited on concrete
inputs. -/
theorem claim_C9_witness :
    ((∀ st, initModel envW9 pW9ok = .ok st → st.p.write_nodes_as_separate_jobs = true) ∧
      (pW9ok.write_nodes_as_tasks = true → runSubmission envW9 pW9ok = (.error .bothModes, []))) ∧
    runSubmission envW9 pW9 = (.error .bothModes, []) :=
  ⟨claim_C9 envW9 pW9ok rfl, (claim_C9 envW9 pW9 rfl).2 rfl⟩

def gsvOptionsC7 : String → List String := fun k =>
  if k == "shot" then ["A", "B"] else if k == "res" then ["lo", "hi"] else []

/-- Claim C7: the flat GSV format `["shot:A,B", "res:lo,hi"]`, with every
value inside its key's enumerable domain, parses to exactly the 4-element
cross product in stable order — input key order preserved, later keys varying
fastest. -/
theorem claim_C7 : parseFlatGsv gsvOptionsC7 ["shot:A,B", "res:lo,hi"] =
    .ok [[("shot", "A"), ("res", "lo")], [("shot", "A"), ("res", "hi")],
         [("shot", "B"), ("res", "lo")], [("shot", "B"), ("res", "hi")]] := rfl

/-- Claim C8: in per-output-task mode with a non-empty write-node list of
length N, the prepared job-info carries `Frames = "0-(N-1)"` and
`ChunkSize = 1`, regardless of the chunk size supplied by caller or
configuration (the parameter is universally quantified here). -/
theorem claim_C8 (env : Env) (p : Params) (gsv : Option Combo) (ws : List String)
    (ht : p.write_nodes_as_tasks = true)
    (hw : p.write_nodes = some ws) (hne : ws ≠ []) :
    jLookup (prepareJobInfo env p gsv) .Frames
        = some (.s ("0-" ++ toString (ws.length - 1))) ∧
    jLookup (prepareJobInfo env p gsv) .ChunkSize = some (.i 1) := by
  have htr : wTruthy p.write_nodes = true := by
    simp only [wTruthy, wLen, hw, gt_iff_lt, decide_eq_true_eq]
    exact List.length_pos.mpr hne
  have hfr : ∀ i : Nat, (JKey.Frames = JKey.JobDependency i) = False := by
    intro i; simp
  have hck : ∀ i : Nat, (JKey.ChunkSize = JKey.JobDependency i) = False := by
    intro i; simp
  unfold prepareJobInfo
  cases hjd : p.job_dependencies with
  | none =>
    by_cases haux : p.submit_script_as_auxiliary_file <;>
      simp_all [jLookup_setKey, wLen,
        jLookup_depWrites_ne JKey.Frames (fun i h => nomatch h),
        jLookup_depWrites_ne JKey.ChunkSize (fun i h => nomatch h)]
  | some jd =>
    by_cases haux : p.submit_script_as_auxiliary_file <;>
      by_cases hje : jd.data.isEmpty <;>
      simp_all [jLookup_setKey, wLen,
        jLookup_depWrites_ne JKey.Frames (fun i h => nomatch h),
        jLookup_depWrites_ne JKey.ChunkSize (fun i h => nomatch h)]

def envW8 : Env := {}

def pW8 : Params :=
  { frame_range := "f-l", write_nodes_as_tasks := true, chunk_size := 44,
    write_nodes := some ["N1", "N2", "N3"] }

/-- Witness for C8 at a concrete input: 3 outputs, caller chunk size 44. -/
theorem claim_C8_witness :
    jLookup (prepareJobInfo envW8 pW8 none) .Frames = some (.s "0-2") ∧
    jLookup (prepareJobInfo envW8 pW8 none) .ChunkSize = some (.i 1) :=
  claim_C8 envW8 pW8 none ["N1", "N2", "N3"] rfl rfl (by decide)

def envC3 : Env :=
  { versionStr := "15.1", hasGsvKnob := true, gsvOptions := fun _ => ["A"] }

def pC3 : Params :=
  { frame_range := "1-10", graph_scope_variables := some (.flat ["shot:A"]) }

/-- Claim C3 counterexample: with `graph_scope_variables` explicitly supplied
by the caller and a hosting Nuke below 15.2, construction succeeds — GSV is
silently dropped (the attribute becomes `None`, zero combinations) and the
submission falls back to the non-GSV single-job path, instead of the terminal
error the claim requires. -/
theorem claim_C3_counterexample :
    (∃ st, initModel envC3 pC3 = .ok st ∧ st.p.graph_scope_variables = none
      ∧ st.combos = []) ∧
    (runSubmission envC3 pC3).1 = .ok [(0, ["J0"])] :=
  ⟨⟨_, rfl, rfl, rfl⟩, rfl⟩

/-- Claim C3 as amended: whenever GSV is requested (necessarily explicitly —
there is no other way GSV gets enabled) on a hosting version without GSV
support, the constructor completes without error, with the GSV request
silently discarded and zero combinations produced, provided the remaining
validation passes (no task-mode conflict, script present, valid frame
range). -/
theorem claim_C3 (env : Env) (p : Params)
    (hg : gsvTruthy p.graph_scope_variables = true)
    (hv : supportsGsv env.versionStr = false)
    (ht : p.write_nodes_as_tasks = false)
    (hs : env.scriptExists = true)
    (hfr : FrameRange.is_valid_syntax (FrameRange.mkFR p.frame_range) = true) :
    ∃ st, initModel env p = .ok st ∧ st.p.graph_scope_variables = none
      ∧ st.combos = [] := by
  have hfe : p.frame_range.data.isEmpty = false := by
    have hv2 := hfr
    unfold FrameRange.is_valid_syntax FrameRange.mkFR at hv2
    cases hh : p.frame_range.data.isEmpty
    · rfl
    · rw [hh] at hv2; simp at hv2
  unfold initModel
  cases hrod : p.render_order_dependencies <;>
    simp [hrod, ht, hs, hg, hv, hfe, hfr, show gsvTruthy none = false from rfl]

/-- Witness for C3 as amended, at the concrete counterexample input. -/
theorem claim_C3_witness :
    ∃ st, initModel envC3 pC3 = .ok st ∧ st.p.graph_scope_variables = none
      ∧ st.combos = [] :=
  claim_C3 envC3 pC3 rfl rfl rfl rfl rfl

/-- Claim C5 counterexample: `expand_range` on the valid, token-free,
overlapping expression `"1-3,2"` returns `[1, 2, 2, 3]` — sorted but with the
frame 2 appearing twice, so the result is not the duplicate-free union the
claim requires. -/
theorem claim_C5_counterexample :
    (FrameRange.mkFR "1-3,2").expand_range = .ok [1, 2, 2, 3] ∧
    ¬ ([1, 2, 2, 3] : List Int).Nodup :=
  ⟨rfl, by decide⟩

/-- Claim C5 as amended: for a token-free expression, a successful
`expand_range` returns the ascending sort of the plain concatenation of the
per-segment expansions (duplicates are kept, not removed); each
`start-end{x|/}step` segment still contributes exactly
`range(start, end + 1, step)`. -/
theorem claim_C5 (s : String) (l : List Int)
    (h : (FrameRange.mkFR s).expand_range = .ok l) :
    l.Sorted (· ≤ ·) ∧
    (∃ raw, expandParts (splitOnC ',' s.data) = .ok raw ∧
      l = pySort intLe raw ∧ l.Perm raw) ∧
    (∀ (q : List Char) (a b stp : Int), matchRangeHead q = some (a, b, stp) →
      q.contains '-' = true → 0 < stp → a ≤ b →
      expandPart q = .ok (pyRange a (b + 1) stp)) := by
  have hseg : ∀ (q : List Char) (a b stp : Int), matchRangeHead q = some (a, b, stp) →
      q.contains '-' = true → 0 < stp → a ≤ b →
      expandPart q = .ok (pyRange a (b + 1) stp) := by
    intro q a b stp hm hc hstp hab
    unfold expandPart
    rw [if_pos hc]
    simp only [hm]
    rw [if_neg (by omega), if_neg (by omega)]
  unfold FrameRange.expand_range at h
  by_cases htok : (FrameRange.mkFR s).has_tokens = true
  · rw [if_pos (by rw [htok]; rfl)] at h
    exact absurd h (by simp)
  · rw [if_neg (by simp [htok])] at h
    rw [show (FrameRange.mkFR s).processed_str.data.isEmpty = true from rfl,
      if_pos rfl] at h
    split at h
    · exact absurd h (by simp)
    · have h2 : (match expandParts (splitOnC ',' s.data) with
          | Except.error e => Except.error e
          | Except.ok res => Except.ok (pySort intLe res)) = Except.ok l := h
      rcases hep : expandParts (splitOnC ',' s.data) with e | raw
      · rw [hep] at h2
        exact absurd h2 (by simp)
      · rw [hep] at h2
        have hl : l = pySort intLe raw := (Except.ok.inj h2).symm
        refine ⟨?_, ⟨raw, rfl, hl, ?_⟩, hseg⟩

        · rw [hl]; exact pySort_intLe_sorted raw
        · rw [hl]; exact pySort_perm intLe raw

/-- Witness for C5 as amended at `"1-10x3"`, whose expansion is
`[1, 4, 7, 10]`. -/
theorem claim_C5_witness :
    ([1, 4, 7, 10] : List Int).Sorted (· ≤ ·) ∧
    (∃ raw, expandParts (splitOnC ',' "1-10x3".data) = .ok raw ∧
      ([1, 4, 7, 10] : List Int) = pySort intLe raw ∧
      ([1, 4, 7, 10] : List Int).Perm raw) ∧
    (∀ (q : List Char) (a b stp : Int), matchRangeHead q = some (a, b, stp) →
      q.contains '-' = true → 0 < stp → a ≤ b →
      expandPart q = .ok (pyRange a (b + 1) stp)) :=
  claim_C5 "1-10x3" [1, 4, 7, 10] rfl

def frC6 : FrameRange := (FrameRange.mkFR "f-l").substitute_tokens (some 1) none none

/-- Claim C6 counterexample: after a partial `substitute_tokens` that supplied
only the first frame, the token `l` is still unresolved in the processed
string `"1-l"`, yet `expand_range` fails with the segment parse error
`invalidRangeFormat "1-l"`, not with the distinct needs-substitution error the
claim requires. -/
theorem claim_C6_counterexample :
    frC6.has_tokens = true ∧ frC6.processed_str = "1-l" ∧
    frC6.expand_range = .error (.invalidRangeFormat "1-l") ∧
    FRErr.invalidRangeFormat "1-l" ≠ FRErr.needsSubstitution :=
  ⟨rfl, rfl, rfl, by decide⟩

/-- Claim C6 as amended: `expand_range` raises the distinct
needs-substitution error exactly when tokens are present and no
`substitute_tokens` call has happened yet (the processed string is still
empty); once any substitution attempt — even a partial one — has set the
processed string, remaining tokens surface as segment parse errors instead. -/
theorem claim_C6 (fr : FrameRange) :
    fr.expand_range = .error .needsSubstitution ↔
      (fr.processed_str.data.isEmpty = true ∧ fr.has_tokens = true) := by
  have hmain : ∀ proc : String,
      ((match expandParts (splitOnC ',' proc.data) with
        | Except.error e => Except.error e
        | Except.ok res => Except.ok (pySort intLe res)) =
        (Except.error FRErr.needsSubstitution : Except FRErr (List Int))) → False := by
    intro proc hcon
    cases hep : expandParts (splitOnC ',' proc.data) with
    | error e =>
      rw [hep] at hcon
      exact expandParts_ne_needs _ ((Except.error.inj hcon) ▸ hep)
    | ok res => rw [hep] at hcon; exact Except.noConfusion hcon
  constructor
  · intro h
    unfold FrameRange.expand_range at h
    cases he : fr.processed_str.data.isEmpty with
    | true =>
      cases ht : fr.has_tokens with
      | true => exact ⟨rfl, rfl⟩
      | false =>
        exfalso
        rw [he, ht] at h
        rw [if_neg (show ¬((true && false : Bool) = true) by simp),
          if_pos rfl] at h
        split at h
        · simp at h
        · exact hmain fr.original_str h
    | false =>
      exfalso
      rw [he] at h
      rw [if_neg (show ¬((false && fr.has_tokens : Bool) = true) by simp),
        if_neg (show ¬((false : Bool) = true) by simp)] at h
      split at h
      · simp at h
      · exact hmain fr.processed_str h
  · intro hh
    unfold FrameRange.expand_range
    rw [if_pos (by simp [hh.1, hh.2])]

/-- Witness for C6 as amended: a token-bearing range with no substitution
attempt yields exactly the needs-substitution error. -/
theorem claim_C6_witness :
    (FrameRange.mkFR "f,m").expand_range = .error .needsSubstitution :=
  (claim_C6 (FrameRange.mkFR "f,m")).mpr ⟨rfl, rfl⟩

/-- Claim C10: with per-output-job mode or render-order dependencies
requested and an effective write-node list of exactly one node (caller-given
or auto-discovered), `submit()` takes the single-job path: exactly one
`submit_job` call, its id recorded under render-order key 0 (whatever the
node's own render order is), and no dependency wiring on the job. -/
theorem claim_C10 (env : Env) (st : InitState) (w : String)
    (hgsv : st.p.graph_scope_variables = none)
    (hw : (autoDiscover env st.p).write_nodes = some [w])
    (hjd : st.p.job_dependencies = none)
    (hmode : st.p.write_nodes_as_separate_jobs = true ∨
      st.p.render_order_dependencies = true) :
    (submitModel env st).1 = [(0, [env.jobIds 0])] ∧
    ((submitModel env st).2.map (fun e => (e.ro, e.jid))) = [(0, env.jobIds 0)] ∧
    (∀ i, (submitModel env st).2.map
        (fun e => jLookup e.jobInfo (.JobDependency i)) = [none]) := by
  have hq1 : (autoDiscover env st.p).graph_scope_variables = none :=
    (autoDiscover_gsv env st.p).trans hgsv
  have hq2 : (autoDiscover env st.p).job_dependencies = none :=
    (autoDiscover_jd env st.p).trans hjd
  unfold submitModel
  rw [if_neg (show ¬((gsvTruthy (autoDiscover env st.p).graph_scope_variables
      && !st.combos.isEmpty) = true) by rw [hq1]; simp [gsvTruthy])]
  unfold singlePass
  rw [hw]
  rw [if_neg (by simp [wLen]), if_neg (by simp [wLen])]
  refine ⟨rfl, rfl, fun i => ?_⟩
  simp only [doSubmit, SubState.empty, List.nil_append, List.map_cons, List.map_nil,
    List.cons.injEq, and_true]
  exact prepareJobInfo_dep_none env _ none i hq2

def envW10 : Env := { nodes := [{ name := "Solo", renderOrder := 7 }] }

def stW10 : InitState :=
  { p := { frame_range := "1-10", write_nodes_as_separate_jobs := true },
    combos := [], fr := FrameRange.mkFR "1-10" }

/-- Witness for C10: one auto-discovered node of render order 7; its job id
lands under key 0 with no dependency keys. -/
theorem claim_C10_witness :
    (submitModel envW10 stW10).1 = [(0, [envW10.jobIds 0])] ∧
    ((submitModel envW10 stW10).2.map (fun e => (e.ro, e.jid)))
      = [(0, envW10.jobIds 0)] ∧
    (∀ i, (submitModel envW10 stW10).2.map
        (fun e => jLookup e.jobInfo (.JobDependency i)) = [none]) :=
  claim_C10 envW10 stW10 "Solo" rfl rfl rfl (Or.inl rfl)

def envC1 : Env :=
  { nodes := [{ name := "W0", renderOrder := 0 }, { name := "W1", renderOrder := 1 }],
    versionStr := "16.0", hasGsvKnob := true,
    gsvOptions := fun k => if k == "shot" then ["A", "B"] else [] }

def pC1 : Params :=
  { frame_range := "1-10", render_order_dependencies := true,
    graph_scope_variables := some (.flat ["shot:A,B"]) }

/-- Claim C1 counterexample: two GSV combinations over two write nodes with
render orders 0 and 1.  The fourth submitted job belongs to the second pass
(`passIdx = 1`), yet its `JobDependency0` is `"J0"` — the id returned for the
first pass's order-0 job — because `jobs_by_render_order` is one shared
accumulator for the whole invocation (initialised once at source line 1492),
so the passes are not independent with respect to dependency state. -/
theorem claim_C1_counterexample :
    ((runSubmission envC1 pC1).2.map (fun e => e.passIdx)) = [0, 0, 1, 1] ∧
    ((runSubmission envC1 pC1).2.map (fun e => e.jid)) = ["J0", "J1", "J2", "J3"] ∧
    ((runSubmission envC1 pC1).2.map (fun e => jLookup e.jobInfo (.JobDependency 0)))
      = [none, some (.s "J0"), none, some (.s "J0")] ∧
    ((runSubmission envC1 pC1).2.map (fun e => jLookup e.jobInfo (.JobDependency 1)))
      = [none, none, none, some (.s "J2")] :=
  ⟨rfl, rfl, rfl, rfl⟩

/-- Claim C1 as amended: the render-order dependency wiring of a submitted
job reads the shared `jobs_by_render_order` accumulator as it stands at
submission time: with no user-supplied dependencies, the job's
`JobDependency0..K` are exactly the ids recorded so far under the immediately
preceding unique render order — ids accumulated across every earlier GSV pass
as well as the current one, so passes share dependency state. -/
theorem claim_C1 (env : Env) (p : Params) (gsv : Option Combo) (ctx : NodeCtx)
    (byRO : RoMap) (wn : String) (ds : List String)
    (hrod : p.render_order_dependencies = true)
    (hidx : 0 < idxOfInt ctx.unique (orderOfEnv env wn))
    (hprev : roLookup byRO
      (ctx.unique.getD (idxOfInt ctx.unique (orderOfEnv env wn) - 1) 0) = some ds)
    (hdc : ctx.depCount = 0)
    (hbase : ∀ j, jLookup ctx.baseJob (.JobDependency j) = none) :
    ∀ i, jLookup (nodeJobInfo env p gsv ctx byRO wn) (.JobDependency i)
      = if i < ds.length then some (.s (ds.getD i "")) else none :=
  nodeJobInfo_dep_pos env p gsv ctx byRO wn ds hrod hidx hprev hdc hbase

def envC2 : Env :=
  { nodes := [{ name := "A", renderOrder := 1 }, { name := "B", renderOrder := 0 }] }

def pC2 : Params :=
  { frame_range := "1-10", render_order_dependencies := true,
    submit_alphabetically := true, write_nodes := some ["A", "B"] }

/-- Claim C2 counterexample: per-output-job submission with render-order
dependencies, no user dependencies, and alphabetical-only sorting.  Node "A"
has render order 1, node "B" order 0, so the traversal order is [1, 0]: the
order-1 job is NOT in the lowest unique order group ([0, 1]), yet it receives
no `JobDependency0` at all — the order-0 group had not been submitted when it
was wired (source lines 1272–1307 re-sort alphabetically, 1743–1756 read the
accumulator as it stands). -/
theorem claim_C2_counterexample :
    ((runSubmission envC2 pC2).2.map (fun e => e.ro)) = [1, 0] ∧
    uniqueOrders ((runSubmission envC2 pC2).2.map (fun e => e.ro)) = [0, 1] ∧
    ((runSubmission envC2 pC2).2.map (fun e => jLookup e.jobInfo (.JobDependency 0)))
      = [none, none] :=
  ⟨rfl, rfl, rfl⟩

/-- Claim C2 as amended: when the sorted write-node traversal is ascending in
render order (as with render-order sorting or the default grouping — but not
necessarily with alphabetical-only sorting), per-output-job submission with
render-order dependencies and no user dependencies wires each job of a
non-lowest unique render order to exactly the ids of ALL jobs of the
immediately preceding unique render order, and each job of the lowest unique
order gets no `JobDependency` entries; ids are handed out in submission order
and each job is recorded under its node's render order. -/
theorem claim_C2 (env : Env) (p : Params) (fr : FrameRange)
    (ws : List String) (os uq : List Int) (tr : List SubEntry)
    (hws : ws = sortedWriteNodes env p)
    (hos : os = ws.map (orderOfEnv env))
    (huq : uq = uniqueOrders os)
    (htr : tr = (submitModel env ⟨p, [], fr⟩).2)
    (hrod : p.render_order_dependencies = true)
    (htasks : p.write_nodes_as_tasks = false)
    (hjd : p.job_dependencies = none)
    (hgsv : p.graph_scope_variables = none)
    (hw : wTruthy p.write_nodes = true)
    (hlen : 1 < wLen p.write_nodes)
    (hasc : os.Pairwise (· ≤ ·)) :
    tr.length = ws.length ∧
    ∀ k, k < tr.length →
      (tr.getD k dE).ro = os.getD k 0 ∧
      (tr.getD k dE).jid = env.jobIds k ∧
      (idxOfInt uq (os.getD k 0) = 0 →
        ∀ i, jLookup (tr.getD k dE).jobInfo (.JobDependency i) = none) ∧
      (0 < idxOfInt uq (os.getD k 0) →
        ∀ i, jLookup (tr.getD k dE).jobInfo (.JobDependency i) =
          if i < (specGroup env os 0 os.length
              (uq.getD (idxOfInt uq (os.getD k 0) - 1) 0)).length
          then some (JVal.s ((specGroup env os 0 os.length
              (uq.getD (idxOfInt uq (os.getD k 0) - 1) 0)).getD i ""))
          else none) := by
  subst huq
  subst hos
  subst hws
  have hsm : (submitModel env ⟨p, [], fr⟩).2 =
      entriesOf env p none 0
        (mkNodeCtx env p none (prepareJobInfo env p none) (preparePluginInfo env p none))
        [] (sortedWriteNodes env p) := by
    unfold submitModel
    have had : autoDiscover env (InitState.mk p [] fr).p = p := autoDiscover_id env p hw
    rw [had]
    unfold singlePass
    simp only [hgsv, gsvTruthy, htasks, hrod, Bool.false_and, Bool.false_eq_true, if_false,
      Bool.or_true, Bool.true_and, decide_eq_true hlen, if_true, List.isEmpty_nil,
      Bool.not_true, Bool.and_false]
    rw [runNodes_spec env p none 0 _ (sortedWriteNodes env p) SubState.empty rfl rfl]
    simp [SubState.empty]
  subst htr
  rw [hsm]
  constructor
  · exact entriesOf_length env p none 0 _ (sortedWriteNodes env p) []
  intro k hk
  have hkw : k < (sortedWriteNodes env p).length := by
    rw [entriesOf_length] at hk
    exact hk
  have hkos : k < ((sortedWriteNodes env p).map (orderOfEnv env)).length := by
    rw [List.length_map]
    exact hkw
  rw [entriesOf_getD env p none 0 _ dE (sortedWriteNodes env p) [] k hkw]
  simp only [List.nil_append]
  have horder := getD_map_order env (sortedWriteNodes env p) k hkw
  have hbase : ∀ j, jLookup (mkNodeCtx env p none (prepareJobInfo env p none)
      (preparePluginInfo env p none)).baseJob (.JobDependency j) = none :=
    fun j => prepareJobInfo_dep_none env p none j hjd
  have hdc : (mkNodeCtx env p none (prepareJobInfo env p none)
      (preparePluginInfo env p none)).depCount = 0 := by
    simp [mkNodeCtx, hjd]
  refine ⟨?_, ?_, ?_, ?_⟩
  · exact horder.symm
  · show env.jobIds ((entriesOf env p none 0 _ [] (sortedWriteNodes env p)).take k).length
        = env.jobIds k
    congr 1
    rw [List.length_take, entriesOf_length]
    omega
  · intro h0 i
    rw [horder] at h0
    exact nodeJobInfo_dep_zero env p none _ _ _ h0 hbase i
  · intro hpos i
    obtain ⟨hfull, hne⟩ := specGroup_prefix_full env
      ((sortedWriteNodes env p).map (orderOfEnv env)) k hkos hasc hpos
    have hne' := hfull ▸ hne
    have hprev : roLookup
        (byROof ((entriesOf env p none 0
          (mkNodeCtx env p none (prepareJobInfo env p none) (preparePluginInfo env p none))
          [] (sortedWriteNodes env p)).take k))
        ((uniqueOrders ((sortedWriteNodes env p).map (orderOfEnv env))).getD
          (idxOfInt (uniqueOrders ((sortedWriteNodes env p).map (orderOfEnv env)))
            (((sortedWriteNodes env p).map (orderOfEnv env)).getD k 0) - 1) 0)
        = some (specGroup env ((sortedWriteNodes env p).map (orderOfEnv env)) 0
            ((sortedWriteNodes env p).map (orderOfEnv env)).length
            ((uniqueOrders ((sortedWriteNodes env p).map (orderOfEnv env))).getD
              (idxOfInt (uniqueOrders ((sortedWriteNodes env p).map (orderOfEnv env)))
                (((sortedWriteNodes env p).map (orderOfEnv env)).getD k 0) - 1) 0)) := by
      rw [roLookup_byROof]
      rw [groupJids_take_entriesOf env p none 0 _ _ (sortedWriteNodes env p) [] k
        (le_of_lt hkw)]
      show olist (specGroup env ((sortedWriteNodes env p).map (orderOfEnv env)) 0 k _) = _
      rw [hfull]
      exact olist_of_ne_nil _ hne'
    rw [horder] at hpos hprev ⊢
    exact nodeJobInfo_dep_pos env p none _ _ _ _ hrod hpos hprev hdc hbase i

def envW2 : Env :=
  { nodes := [{ name := "N1", renderOrder := 0 }, { name := "N2", renderOrder := 0 },
              { name := "N3", renderOrder := 1 }] }

def pW2 : Params :=
  { frame_range := "1-10", render_order_dependencies := true,
    write_nodes := some ["N1", "N2", "N3"] }

def frW2 : FrameRange := FrameRange.mkFR "1-10"

/-- Witness for C2 as amended: three outputs of render orders 0, 0, 1 — the
third job's `JobDependency0` is job 1's returned id and its `JobDependency1`
is job 2's id. -/
theorem claim_C2_witness :
    jLookup (((submitModel envW2 ⟨pW2, [], frW2⟩).2.getD 2 dE).jobInfo)
        (.JobDependency 0) = some (.s "J0") ∧
    jLookup (((submitModel envW2 ⟨pW2, [], frW2⟩).2.getD 2 dE).jobInfo)
        (.JobDependency 1) = some (.s "J1") :=
  ⟨(((claim_C2 envW2 pW2 frW2 _ _ _ _ rfl rfl rfl rfl rfl rfl rfl rfl rfl
        (by decide) (by decide)).2 2 (by decide)).2.2.2 (by decide) 0).trans (by rfl),
   (((claim_C2 envW2 pW2 frW2 _ _ _ _ rfl rfl rfl rfl rfl rfl rfl rfl rfl
        (by decide) (by decide)).2 2 (by decide)).2.2.2 (by decide) 1).trans (by rfl)⟩

def envW1 : Env :=
  { nodes := [{ name := "W0", renderOrder := 0 }, { name := "W1", renderOrder := 1 }] }

def pW1 : Params :=
  { frame_range := "1-10", render_order_dependencies := true,
    write_nodes := some ["W0", "W1"] }

def ctxW1 : NodeCtx :=
  mkNodeCtx envW1 pW1 none (prepareJobInfo envW1 pW1 none)
    (preparePluginInfo envW1 pW1 none)

/-- Witness for C1 as amended: the order-1 node's job picks up exactly the
accumulator entry recorded under order 0. -/
theorem claim_C1_witness :
    jLookup (nodeJobInfo envW1 pW1 none ctxW1 [(0, ["J0"])] "W1") (.JobDependency 0)
      = some (.s "J0") :=
  claim_C1 envW1 pW1 none ctxW1 [(0, ["J0"])] "W1" ["J0"] rfl (by decide) rfl rfl
    (fun j => prepareJobInfo_dep_none envW1 pW1 none j rfl) 0

end Nk2dl
